import Mathlib

/-!
Verification of the resume-parse-frontier repository's extraction pipeline.

The development shallowly embeds the Python sources:
  * `resumeparser.py` — the provider dispatcher `extract_resume_data` and the
    three backend wrappers `_call_openai`, `_call_gemini`, `_call_ollama`;
  * `batch_validator.py` — `calculate_experience_fallback`,
    `flatten_parsed_data` and the batch loop `run_extraction`;
  * `app.py` — shares the name-sanitization / output-filename logic.

External collaborators (the LLM SDKs, the network, the filesystem) are
modelled as explicit parameters describing their observable behaviour for
one call: a backend either returns a string or raises (an `Except`), a
download either yields a file path or fails (an `Option`), and so on.
Python dynamic values are modelled by `PyVal`, and code that can raise an
uncaught exception returns in an `Except PyErr` monad.
-/

set_option maxHeartbeats 1000000

namespace ResumeFrontier

/-! ## JSON values and Python-style serialization

`json.dumps(obj, indent=4)` is only applied by the source to the flat error
envelope `{error: true, message: ..., provider: ...}`; `errorEnvelopeString`
below reproduces its exact output for that shape, including CPython's
`ensure_ascii` string escaping. -/

/-- JSON values as produced by `json.loads`.  Number literals keep their
lexeme so that integers and floats can be told apart afterwards. -/
inductive Json where
  | null : Json
  | bool (b : Bool) : Json
  | num (lexeme : String) : Json
  | str (s : String) : Json
  | arr (elems : List Json) : Json
  | obj (members : List (String × Json)) : Json

/-- Lowercase hexadecimal digit for `n < 16`, as in CPython's `\uXXXX`
escapes. -/
def hexDig (n : Nat) : Char :=
  if n < 10 then Char.ofNat (48 + n) else Char.ofNat (87 + n)

/-- Four lowercase hex digits of `n < 0x10000`, most significant first. -/
def hex4 (n : Nat) : List Char :=
  [hexDig (n / 4096 % 16), hexDig (n / 256 % 16), hexDig (n / 16 % 16), hexDig (n % 16)]

/-- Value of one hexadecimal digit (upper or lower case), if any. -/
def hexVal (c : Char) : Option Nat :=
  if 48 ≤ c.toNat ∧ c.toNat ≤ 57 then some (c.toNat - 48)
  else if 97 ≤ c.toNat ∧ c.toNat ≤ 102 then some (c.toNat - 87)
  else if 65 ≤ c.toNat ∧ c.toNat ≤ 70 then some (c.toNat - 55)
  else none

/-- CPython `json` escaping of one character under `ensure_ascii=True`:
quote and backslash get a two-character escape, the five named control
characters get theirs, every other character outside `0x20`–`0x7e` becomes
`\uXXXX` (a surrogate pair when beyond the BMP), and the rest pass through. -/
def escChar (c : Char) : List Char :=
  if c = '"' then ['\\', '"']
  else if c = '\\' then ['\\', '\\']
  else if c = '\n' then ['\\', 'n']
  else if c = '\t' then ['\\', 't']
  else if c = '\r' then ['\\', 'r']
  else if c = Char.ofNat 8 then ['\\', 'b']
  else if c = Char.ofNat 12 then ['\\', 'f']
  else if c.toNat < 32 ∨ 126 < c.toNat then
    if c.toNat < 65536 then '\\' :: 'u' :: hex4 c.toNat
    else
      let v := c.toNat - 65536
      ('\\' :: 'u' :: hex4 (55296 + v / 1024)) ++ ('\\' :: 'u' :: hex4 (56320 + v % 1024))
  else [c]

/-- CPython `json` escaping of a whole string. -/
def escapeL : List Char → List Char
  | [] => []
  | c :: cs => escChar c ++ escapeL cs

/-- A JSON string literal for `s`, as `json.dumps` emits it. -/
def jsonQuote (s : String) : String :=
  String.mk ('"' :: escapeL s.data ++ ['"'])

/-- Exact output of `json.dumps({"error": True, "message": m, "provider": p},
indent=4)`, the only serialization performed by `resumeparser.py` (line 152). -/
def errorEnvelopeString (m p : String) : String :=
  "\x7b\n    \"error\": true,\n    \"message\": " ++ jsonQuote m ++
    ",\n    \"provider\": " ++ jsonQuote p ++ "\n\x7d"

/-! ## A JSON parser modelling `json.loads` acceptance

Used to state "the dispatcher's return value parses as valid JSON".
It follows CPython's `json.loads` on its defaults: the four JSON
whitespace characters, `NaN`/`Infinity`/`-Infinity` accepted, no leading
zeros, strings with the standard escapes (surrogate pairs recombined; a
lone surrogate escape is rejected here, where CPython would build a
degenerate `str`, a corner no claim touches).  Nesting is bounded by fuel
as CPython bounds it by the recursion limit. -/

/-- Skip JSON whitespace (space, tab, newline, carriage return). -/
def skipWs : List Char → List Char
  | [] => []
  | c :: rest =>
    if c = ' ' ∨ c = '\t' ∨ c = '\n' ∨ c = '\r' then skipWs rest else c :: rest

/-- Decode of the single-character string escapes. -/
def simpleEsc (c : Char) : Option Char :=
  if c = '"' then some '"'
  else if c = '\\' then some '\\'
  else if c = '/' then some '/'
  else if c = 'b' then some (Char.ofNat 8)
  else if c = 'f' then some (Char.ofNat 12)
  else if c = 'n' then some '\n'
  else if c = 'r' then some '\r'
  else if c = 't' then some '\t'
  else none

/-- Combine four hex digits into a code unit. -/
def hex4Val (h1 h2 h3 h4 : Char) : Option Nat :=
  match hexVal h1, hexVal h2, hexVal h3, hexVal h4 with
  | some a, some b, some c, some d => some (((a * 16 + b) * 16 + c) * 16 + d)
  | _, _, _, _ => none

/-- Parse the body of a JSON string literal (after the opening quote) up to
and including the closing quote, returning the decoded characters and the
remaining input.  `fuel` only serves to make the recursion structural (each
step consumes at least one character, so any `fuel` beyond the input length
is enough). -/
def parseStringBodyF (fuel : Nat) (l : List Char) : Option (List Char × List Char) :=
  match fuel, l with
  | _, [] => none
  | 0, _ :: _ => none
  | fuel + 1, c :: rest =>
    if c = '"' then some ([], rest)
    else if c = '\\' then
      match rest with
      | [] => none
      | e :: rest2 =>
        if e = 'u' then
          match rest2 with
          | h1 :: h2 :: h3 :: h4 :: rest3 =>
            match hex4Val h1 h2 h3 h4 with
            | none => none
            | some n =>
              if 55296 ≤ n ∧ n < 56320 then
                match rest3 with
                | b1 :: b2 :: g1 :: g2 :: g3 :: g4 :: rest4 =>
                  if b1 = '\\' ∧ b2 = 'u' then
                    match hex4Val g1 g2 g3 g4 with
                    | none => none
                    | some m =>
                      if 56320 ≤ m ∧ m < 57344 then
                        (parseStringBodyF fuel rest4).map
                          (fun p => (Char.ofNat (65536 + (n - 55296) * 1024 + (m - 56320)) :: p.1, p.2))
                      else none
                  else none
                | _ => none
              else if 56320 ≤ n ∧ n < 57344 then none
              else (parseStringBodyF fuel rest3).map (fun p => (Char.ofNat n :: p.1, p.2))
          | _ => none
        else
          match simpleEsc e with
          | some d => (parseStringBodyF fuel rest2).map (fun p => (d :: p.1, p.2))
          | none => none
    else (parseStringBodyF fuel rest).map (fun p => (c :: p.1, p.2))

/-- The string-literal parser with always-sufficient fuel. -/
def parseStringBody (l : List Char) : Option (List Char × List Char) :=
  parseStringBodyF (l.length + 1) l

/-- Lex the digits `0-9` greedily. -/
def lexDigits : List Char → List Char × List Char
  | [] => ([], [])
  | c :: rest =>
    if c.isDigit then
      let p := lexDigits rest
      (c :: p.1, p.2)
    else ([], c :: rest)

/-- Lex the signed digit run of an exponent, appending it to `acc`. -/
def lexExpTail (acc : List Char) (e : Char) : List Char → Option (List Char × List Char)
  | '+' :: r =>
    let p := lexDigits r
    if p.1 = [] then none else some (acc ++ e :: '+' :: p.1, p.2)
  | '-' :: r =>
    let p := lexDigits r
    if p.1 = [] then none else some (acc ++ e :: '-' :: p.1, p.2)
  | r =>
    let p := lexDigits r
    if p.1 = [] then none else some (acc ++ e :: p.1, p.2)

/-- Lex an optional exponent part and finish the number lexeme. -/
def lexExponent (acc : List Char) : List Char → Option (List Char × List Char)
  | 'e' :: r => lexExpTail acc 'e' r
  | 'E' :: r => lexExpTail acc 'E' r
  | rest => some (acc, rest)

/-- Lex a JSON number starting at the current position.  Grammar:
`-? (0 | [1-9][0-9]*) (. [0-9]+)? ([eE] [+-]? [0-9]+)?`. -/
def lexNumber (l : List Char) : Option (List Char × List Char) :=
  let (neg, l1) :=
    match l with
    | '-' :: rest => (['-'], rest)
    | _ => (([] : List Char), l)
  match l1 with
  | [] => none
  | c :: rest =>
    if ¬ c.isDigit then none
    else
      let (ip, l2) :=
        if c = '0' then ([c], rest)
        else
          let p := lexDigits rest
          (c :: p.1, p.2)
      match l2 with
      | '.' :: r =>
        let p := lexDigits r
        if p.1 = [] then none
        else lexExponent (neg ++ ip ++ '.' :: p.1) p.2
      | l3 => lexExponent (neg ++ ip) l3

/-- Opening brace character. -/
def lbrace : Char := Char.ofNat 123

/-- Closing brace character. -/
def rbrace : Char := Char.ofNat 125

/-- What the grammar parser is currently parsing: one value, the members of
an object, or the elements of an array.  The three mutually recursive
productions are fused into one function (`parseP`) so that the recursion is
structural in the fuel and computes definitionally. -/
inductive PMode where
  | value : PMode
  | members : PMode
  | elems : PMode

/-- Result of one `parseP` production. -/
inductive PResult where
  | val (j : Json) : PResult
  | mems (ms : List (String × Json)) : PResult
  | els (es : List Json) : PResult

/-- Parse one production of the JSON grammar.  In `value` mode, leading
whitespace is skipped and one value is read; `members` and `elems` parse
the inside of an object or array whose first non-whitespace character is
already at the head, up to and including the closing delimiter.  `fuel`
bounds the nesting depth, mirroring CPython's recursion limit; every claim
below is settled far beneath it. -/
def parseP (fuel : Nat) (mode : PMode) (l : List Char) : Option (PResult × List Char) :=
  match fuel with
  | 0 => none
  | fuel + 1 =>
    match mode with
    | PMode.value =>
      match skipWs l with
      | [] => none
      | c :: rest =>
        if c = '"' then
          (parseStringBody rest).map (fun p => (PResult.val (Json.str (String.mk p.1)), p.2))
        else if c = lbrace then
          match skipWs rest with
          | [] => none
          | c2 :: rest2 =>
            if c2 = rbrace then some (PResult.val (Json.obj []), rest2)
            else
              match parseP fuel PMode.members (c2 :: rest2) with
              | some (PResult.mems ms, rest3) => some (PResult.val (Json.obj ms), rest3)
              | _ => none
        else if c = '[' then
          match skipWs rest with
          | [] => none
          | c2 :: rest2 =>
            if c2 = ']' then some (PResult.val (Json.arr []), rest2)
            else
              match parseP fuel PMode.elems (c2 :: rest2) with
              | some (PResult.els es, rest3) => some (PResult.val (Json.arr es), rest3)
              | _ => none
        else if c = 't' then
          match rest with
          | 'r' :: 'u' :: 'e' :: rest2 => some (PResult.val (Json.bool true), rest2)
          | _ => none
        else if c = 'f' then
          match rest with
          | 'a' :: 'l' :: 's' :: 'e' :: rest2 => some (PResult.val (Json.bool false), rest2)
          | _ => none
        else if c = 'n' then
          match rest with
          | 'u' :: 'l' :: 'l' :: rest2 => some (PResult.val Json.null, rest2)
          | _ => none
        else if c = 'N' then
          match rest with
          | 'a' :: 'N' :: rest2 => some (PResult.val (Json.num ("NaN")), rest2)
          | _ => none
        else if c = 'I' then
          match rest with
          | 'n' :: 'f' :: 'i' :: 'n' :: 'i' :: 't' :: 'y' :: rest2 =>
            some (PResult.val (Json.num ("Infinity")), rest2)
          | _ => none
        else if c = '-' then
          match rest with
          | 'I' :: 'n' :: 'f' :: 'i' :: 'n' :: 'i' :: 't' :: 'y' :: rest2 =>
            some (PResult.val (Json.num ("-Infinity")), rest2)
          | _ => (lexNumber (c :: rest)).map (fun p => (PResult.val (Json.num (String.mk p.1)), p.2))
        else (lexNumber (c :: rest)).map (fun p => (PResult.val (Json.num (String.mk p.1)), p.2))
    | PMode.members =>
      match l with
      | [] => none
      | c :: rest =>
        if c = '"' then
          match parseStringBody rest with
          | none => none
          | some (key, rest2) =>
            match skipWs rest2 with
            | [] => none
            | c2 :: rest3 =>
              if c2 = ':' then
                match parseP fuel PMode.value rest3 with
                | some (PResult.val v, rest4) =>
                  match skipWs rest4 with
                  | [] => none
                  | c3 :: rest5 =>
                    if c3 = ',' then
                      match parseP fuel PMode.members (skipWs rest5) with
                      | some (PResult.mems ms, rest6) =>
                        some (PResult.mems ((String.mk key, v) :: ms), rest6)
                      | _ => none
                    else if c3 = rbrace then some (PResult.mems [(String.mk key, v)], rest5)
                    else none
                | _ => none
              else none
        else none
    | PMode.elems =>
      match parseP fuel PMode.value l with
      | some (PResult.val v, rest) =>
        match skipWs rest with
        | [] => none
        | c :: rest2 =>
          if c = ',' then
            match parseP fuel PMode.elems (skipWs rest2) with
            | some (PResult.els es, rest3) => some (PResult.els (v :: es), rest3)
            | _ => none
          else if c = ']' then some (PResult.els [v], rest2)
          else none
      | _ => none

/-- Model of `json.loads` acceptance: parse one value, then require only
whitespace to remain. -/
def jsonParse (s : String) : Option Json :=
  match parseP 1000 PMode.value s.data with
  | some (PResult.val j, rest) => if skipWs rest = [] then some j else none
  | _ => none

/-! ## The provider dispatcher (`resumeparser.py`)

The three SDK interactions are external collaborators; each is modelled by
one `Except String String` parameter giving the observable outcome of the
underlying call for this request: `.ok content` when the SDK returns a
response whose content is `content`, `.error msg` when it raises an
exception whose text is `msg`.  Configuration values loaded from
`config.yaml` at module level become a `Config` record (`none` models an
absent key; the empty string is falsy under `not OPENAI_KEY` just like
`None`). -/

/-- Module-level configuration of `resumeparser.py` (lines 22–25). -/
structure Config where
  openaiKey : Option String
  googleKey : Option String
  ollamaModel : String

/-- Python truthiness of an optional string: `None` and `""` are falsy. -/
def strTruthy : Option String → Bool
  | none => false
  | some s => s ≠ ""

/-- Python whitespace for `str.strip()` / `str.rstrip()`; the Unicode-only
whitespace code points are not modelled (no claim involves them). -/
def pyIsSpace (c : Char) : Bool :=
  c = ' ' ∨ c = '\t' ∨ c = '\n' ∨ c = '\r' ∨ c = Char.ofNat 11 ∨ c = Char.ofNat 12

/-- Python `str.strip()` with no argument: drop whitespace at both ends. -/
def pyStrip (s : String) : String :=
  String.mk (((s.data.dropWhile pyIsSpace).reverse.dropWhile pyIsSpace).reverse)

/-- Python `s.replace(needle, "")`: remove every non-overlapping occurrence
of `needle`, scanning left to right.  (For an empty needle Python's result
with an empty replacement is also the identity.)  `fuel` only makes the
recursion structural; each step consumes at least one character, so any
`fuel` beyond the input length is enough. -/
def removeAllF (needle : List Char) (fuel : Nat) (l : List Char) : List Char :=
  match fuel, l with
  | _, [] => []
  | 0, l => l
  | fuel + 1, c :: rest =>
    if needle.isPrefixOf (c :: rest) ∧ needle ≠ [] then
      removeAllF needle fuel (rest.drop (needle.length - 1))
    else c :: removeAllF needle fuel rest

/-- The scan of `removeAllF` with always-sufficient fuel. -/
def removeAll (needle l : List Char) : List Char :=
  removeAllF needle l.length l

/-- Placeholder value for the OpenAI key in a fresh `config.yaml`. -/
def openaiPlaceholder : String := "YOUR OPENAI KEY HERE"

/-- Placeholder value for the Gemini key in a fresh `config.yaml`. -/
def geminiPlaceholder : String := "YOUR GEMINI KEY HERE"

/-- Model of `_call_openai` (lines 62–79): raise `ValueError` when the key
is missing or the placeholder, otherwise return the SDK call's outcome
verbatim. -/
def call_openai (cfg : Config) (sdk : Except String String) : Except String String :=
  if ¬ strTruthy cfg.openaiKey ∨ cfg.openaiKey = some openaiPlaceholder then
    Except.error ("OpenAI API key is missing or not set in config.yaml")
  else sdk

/-- Model of `_call_gemini` (lines 81–99): raise `ValueError` when the key
is missing or the placeholder; on a successful SDK call, return
`response.text.strip().replace("```json", "").replace("```", "")`. -/
def call_gemini (cfg : Config) (sdk : Except String String) : Except String String :=
  if ¬ strTruthy cfg.googleKey ∨ cfg.googleKey = some geminiPlaceholder then
    Except.error ("Google API key is missing or not set in config.yaml")
  else
    match sdk with
    | Except.error msg => Except.error msg
    | Except.ok text =>
      Except.ok (String.mk (removeAll ("```").data (removeAll ("```json").data (pyStrip text).data)))

/-- Text of the `ConnectionError` raised by `_call_ollama` (line 127). -/
def ollamaConnectionMessage (model : String) : String :=
  "Could not connect to Ollama server or the model \x27" ++ model ++
    "\x27 is not available. Is Ollama running?"

/-- Model of `_call_ollama` (lines 101–127): any exception from the client
interaction (connection, model show/pull, chat) is re-raised as a
`ConnectionError` with a fixed message naming the configured model; a
successful chat returns the message content verbatim. -/
def call_ollama (cfg : Config) (sdk : Except String String) : Except String String :=
  match sdk with
  | Except.error _ => Except.error (ollamaConnectionMessage cfg.ollamaModel)
  | Except.ok content => Except.ok content

/-- Branching of `extract_resume_data` (lines 131–143) before its exception
handler: route to the chosen backend or raise `ValueError` on an unknown
provider string. -/
def dispatch (cfg : Config) (sdk : Except String String) (provider : String) :
    Except String String :=
  if provider = "openai" then call_openai cfg sdk
  else if provider = "gemini" then call_gemini cfg sdk
  else if provider = "ollama" then call_ollama cfg sdk
  else
    Except.error ("Invalid provider specified: " ++ provider ++
      ". Choose \x27openai\x27, \x27gemini\x27, or \x27ollama\x27.")

/-- Model of `extract_resume_data` (lines 131–152): the backend's returned
string is passed through; any exception text is wrapped into the JSON error
envelope `json.dumps({"error": True, "message": str(e), "provider":
provider}, indent=4)`.  The resume text itself only flows into the SDK call
and does not influence control flow, so it is not a parameter here. -/
def extract_resume_data (cfg : Config) (sdk : Except String String) (provider : String) :
    String :=
  match dispatch cfg sdk provider with
  | Except.ok s => s
  | Except.error msg => errorEnvelopeString msg provider

/-! ## Python values

`PyVal` covers the values that can flow out of `json.loads` and through the
batch pipeline.  Floats keep their JSON lexeme (their numeric value never
matters to a claim).  `PyErr` tags the uncaught exceptions the batch code
can raise. -/

/-- Python values reachable from `json.loads` output. -/
inductive PyVal where
  | none : PyVal
  | bool (b : Bool) : PyVal
  | int (n : Int) : PyVal
  | float (lexeme : String) : PyVal
  | str (s : String) : PyVal
  | list (xs : List PyVal) : PyVal
  | dict (entries : List (String × PyVal)) : PyVal

/-- Exception classes relevant to the batch pipeline; none of them is
caught by `run_extraction`'s `except json.JSONDecodeError` handler. -/
inductive PyErr where
  | attributeError : PyErr
  | typeError : PyErr
  | keyError : PyErr
  | osError : PyErr
deriving DecidableEq

/-- Truthiness of a float by its JSON lexeme: zero iff it has mantissa
digits and they are all `0` (`NaN`/`Infinity` have none and are truthy;
underflow of tiny exponents to `0.0` is not modelled). -/
def floatTruthy (lexeme : String) : Bool :=
  let ds := (lexeme.data.takeWhile (fun c => c ≠ 'e' ∧ c ≠ 'E')).filter Char.isDigit
  ds = [] ∨ ds.any (fun c => c ≠ '0')

/-- Python truthiness. -/
def pyTruthy : PyVal → Bool
  | PyVal.none => false
  | PyVal.bool b => b
  | PyVal.int n => n ≠ 0
  | PyVal.float lexeme => floatTruthy lexeme
  | PyVal.str s => s ≠ ""
  | PyVal.list xs => ¬ xs.isEmpty
  | PyVal.dict es => ¬ es.isEmpty

mutual

/-- Python `repr`.  For strings the quote-escaping Python performs is not
reproduced (claims only use `str`/`repr` of scalars and of strings without
quotes). -/
def pyRepr : PyVal → String
  | PyVal.none => "None"
  | PyVal.bool true => "True"
  | PyVal.bool false => "False"
  | PyVal.int n => toString n
  | PyVal.float lexeme => lexeme
  | PyVal.str s => "\x27" ++ s ++ "\x27"
  | PyVal.list xs => "[" ++ String.intercalate (", ") (pyReprList xs) ++ "]"
  | PyVal.dict es => "\x7b" ++ String.intercalate (", ") (pyReprDict es) ++ "\x7d"

/-- Rendering of list elements for `pyRepr`. -/
def pyReprList : List PyVal → List String
  | [] => []
  | v :: vs => pyRepr v :: pyReprList vs

/-- Rendering of dict entries for `pyRepr`. -/
def pyReprDict : List (String × PyVal) → List String
  | [] => []
  | (k, v) :: es => ("\x27" ++ k ++ "\x27: " ++ pyRepr v) :: pyReprDict es

end

/-- Python `str()`: the string itself for a `str`, `repr` otherwise. -/
def pyStr : PyVal → String
  | PyVal.str s => s
  | v => pyRepr v

/-- Set a key in a Python dict: the value of the last assignment at the
position of the first. -/
def dictSet : List (String × PyVal) → String → PyVal → List (String × PyVal)
  | [], k, v => [(k, v)]
  | (k', v') :: es, k, v =>
    if k' = k then (k', v) :: es else (k', v') :: dictSet es k v

/-- Look a key up in a Python dict. -/
def dictLookup (es : List (String × PyVal)) (k : String) : Option PyVal :=
  (es.find? (fun e => e.1 = k)).map (fun e => e.2)

/-- Python `d.get(k, default)` — an `AttributeError` when the receiver is
not a dict (the crash mode behind several claims below). -/
def pyGet (v : PyVal) (k : String) (dflt : PyVal) : Except PyErr PyVal :=
  match v with
  | PyVal.dict es => Except.ok ((dictLookup es k).getD dflt)
  | _ => Except.error PyErr.attributeError

/-- Whether a JSON number lexeme is an integer literal (no fraction,
exponent, or `NaN`/`Infinity` letters). -/
def isIntLexeme (l : List Char) : Bool :=
  match l with
  | '-' :: ds => ds ≠ [] ∧ ds.all Char.isDigit
  | ds => ds ≠ [] ∧ ds.all Char.isDigit

/-- Integer value of a digit run. -/
def digitsToNat : List Char → Nat → Nat
  | [], acc => acc
  | c :: cs, acc => digitsToNat cs (acc * 10 + (c.toNat - 48))

/-- Integer value of an integer lexeme. -/
def lexToInt (l : List Char) : Int :=
  match l with
  | '-' :: ds => - Int.ofNat (digitsToNat ds 0)
  | ds => Int.ofNat (digitsToNat ds 0)

mutual

/-- Conversion of parsed JSON into the Python values `json.loads` builds
(objects become dicts with last-wins duplicate keys). -/
def jsonToPy : Json → PyVal
  | Json.null => PyVal.none
  | Json.bool b => PyVal.bool b
  | Json.str s => PyVal.str s
  | Json.num lexeme =>
    if isIntLexeme lexeme.data then PyVal.int (lexToInt lexeme.data) else PyVal.float lexeme
  | Json.arr xs => PyVal.list (jsonToPyList xs)
  | Json.obj ms => PyVal.dict (jsonToPyObj [] ms)

/-- Conversion of array elements. -/
def jsonToPyList : List Json → List PyVal
  | [] => []
  | j :: js => jsonToPy j :: jsonToPyList js

/-- Conversion of object members by repeated dict insertion. -/
def jsonToPyObj (acc : List (String × PyVal)) : List (String × Json) → List (String × PyVal)
  | [] => acc
  | (k, j) :: ms => jsonToPyObj (dictSet acc k (jsonToPy j)) ms

end

/-- Model of `json.loads`: `some` the resulting Python value, `none` when a
`json.JSONDecodeError` is raised. -/
def pyJsonLoads (s : String) : Option PyVal :=
  (jsonParse s).map jsonToPy

/-! ## `batch_validator.py`: the experience fallback

`re.findall(r'\b(19[89]\d|20\d\d)\b', duration)` is modelled by a direct
left-to-right scan: the pattern matches exactly four digit characters with
a word boundary on each side, so a match is a 4-digit window whose
neighbours are not word characters; after a match the scan resumes behind
it (`re.findall` returns non-overlapping matches).  Regex word characters
are Unicode-wide in Python; as for the other character classes below, the
ASCII part suffices for every claim. -/

/-- Regex word character (`\w`), ASCII part. -/
def isWordChar (c : Char) : Bool := c.isAlphanum ∨ c = '_'

/-- Whether the character before the window (none at string start) is a
non-word character, i.e. `\b` holds on the left. -/
def boundaryBefore : Option Char → Bool
  | Option.none => true
  | some p => ¬ isWordChar p

/-- Whether `\b` holds on the right of the window. -/
def boundaryAfter : List Char → Bool
  | [] => true
  | c :: _ => ¬ isWordChar c

/-- The year alternation `19[89]\d|20\d\d` on a 4-character window. -/
def yearMatch (c1 c2 c3 c4 : Char) : Bool :=
  (c1 = '1' ∧ c2 = '9' ∧ (c3 = '8' ∨ c3 = '9') ∧ c4.isDigit) ∨
    (c1 = '2' ∧ c2 = '0' ∧ c3.isDigit ∧ c4.isDigit)

/-- Numeric value of a matched 4-digit window (`int(y)`). -/
def yearValue (c1 c2 c3 c4 : Char) : Int :=
  Int.ofNat ((c1.toNat - 48) * 1000 + (c2.toNat - 48) * 100 + (c3.toNat - 48) * 10 +
    (c4.toNat - 48))

/-- Whether a year match begins at the current position, and its value. -/
def yearHere (prev : Option Char) (l : List Char) : Option Int :=
  match l with
  | c1 :: c2 :: c3 :: c4 :: rest =>
    if boundaryBefore prev ∧ yearMatch c1 c2 c3 c4 ∧ boundaryAfter rest then
      some (yearValue c1 c2 c3 c4)
    else Option.none
  | _ => Option.none

/-- Scan for year tokens position by position; `prev` is the character
before the current position.  `re.findall` resumes behind a match, but the
two scans agree: the three positions inside a match and the one right after
it all have a digit (a word character) immediately to their left, so `\b`
fails there and no further match can begin before the scans re-align. -/
def findYearsAux : Option Char → List Char → List Int
  | _, [] => []
  | prev, c1 :: rest1 =>
    match yearHere prev (c1 :: rest1) with
    | some y => y :: findYearsAux (some c1) rest1
    | Option.none => findYearsAux (some c1) rest1

/-- All year tokens of a duration string, in order with multiplicity, as
`[int(y) for y in re.findall(r'\b(19[89]\d|20\d\d)\b', duration)]`. -/
def findYears (duration : String) : List Int :=
  findYearsAux Option.none duration.data

/-- Year tokens contributed by one job entry:
`str(job.get('duration', ''))` scanned for years.  A non-dict entry raises
`AttributeError` at `.get`. -/
def jobYears (job : PyVal) : Except PyErr (List Int) :=
  match pyGet job ("duration") (PyVal.str "") with
  | Except.error e => Except.error e
  | Except.ok d => Except.ok (findYears (pyStr d))

/-- The `years` list accumulated over the `for job in experience_list`
loop. -/
def collectYears : List PyVal → Except PyErr (List Int)
  | [] => Except.ok []
  | job :: jobs => do
    let ys ← jobYears job
    let rest ← collectYears jobs
    Except.ok (ys ++ rest)

/-- Python `max` over a nonempty list given as head and tail. -/
def listMax (y : Int) (ys : List Int) : Int := ys.foldl max y

/-- Python `min` over a nonempty list given as head and tail. -/
def listMin (y : Int) (ys : List Int) : Int := ys.foldl min y

/-- Model of `calculate_experience_fallback` (lines 97–115).  A falsy
argument returns 0 at once; iterating a truthy non-list raises before any
year is produced (`TypeError` for non-iterables, `AttributeError` at
`job.get` for strings and dicts). -/
def calculate_experience_fallback (experience_list : PyVal) : Except PyErr Int :=
  if ¬ pyTruthy experience_list then Except.ok 0
  else
    match experience_list with
    | PyVal.list jobs => do
      let years ← collectYears jobs
      match years with
      | [] => Except.ok 0
      | y :: ys =>
        Except.ok (if 1 < (y :: ys).length then listMax y ys - listMin y ys else 1)
    | PyVal.str _ => Except.error PyErr.attributeError
    | PyVal.dict _ => Except.error PyErr.attributeError
    | _ => Except.error PyErr.typeError

/-! ## Name sanitization and the per-item output filename

Identical code appears at `batch_validator.py` lines 197–201 and `app.py`
lines 117–121. -/

/-- Python `str.isalpha`, ASCII part (Python's predicate covers all Unicode
letters; the claims depend only on its values at ASCII letters, digits,
space and underscore). -/
def pyIsAlpha (c : Char) : Bool := c.isAlpha

/-- Python `str.isdigit`, ASCII part. -/
def pyIsDigit (c : Char) : Bool := c.isDigit

/-- Python `str.rstrip()`: drop trailing whitespace. -/
def pyRstrip (l : List Char) : List Char :=
  (l.reverse.dropWhile pyIsSpace).reverse

/-- The sanitization
`"".join([c for c in full_name if c.isalpha() or c.isdigit() or c == ' ']).rstrip()`
followed by `.replace(' ', '_')`. -/
def sanitizeName (full_name : String) : String :=
  String.mk
    ((pyRstrip (full_name.data.filter (fun c => pyIsAlpha c || pyIsDigit c || decide (c = ' ')))).map
      (fun c => if c = ' ' then '_' else c))

/-- The output file name `safe_filename`: the sanitized
`parsed_data.get('full_name', 'parsed_resume')` plus `.json`.  The literal
default is used only when the key is absent; a non-string value makes the
comprehension raise (`TypeError` for non-iterables; an iterable of
one-character strings would survive in Python, a corner no claim uses). -/
def outputFilename (parsed_data : PyVal) : Except PyErr String := do
  let fn ← pyGet parsed_data ("full_name") (PyVal.str "parsed_resume")
  match fn with
  | PyVal.str s => Except.ok (sanitizeName s ++ ".json")
  | _ => Except.error PyErr.typeError

/-! ## `flatten_parsed_data` -/

/-- Elements of `[f"{job.get('position', '')} at {job.get('company', '')}
({job.get('duration', '')})" for job in experience]`. -/
def expStrings : List PyVal → Except PyErr (List String)
  | [] => Except.ok []
  | job :: jobs => do
    let p ← pyGet job ("position") (PyVal.str "")
    let c ← pyGet job ("company") (PyVal.str "")
    let d ← pyGet job ("duration") (PyVal.str "")
    let rest ← expStrings jobs
    Except.ok ((pyStr p ++ " at " ++ pyStr c ++ " (" ++ pyStr d ++ ")") :: rest)

/-- Check that every element is a `str`, as `', '.join` demands, and return
the underlying strings. -/
def asStrs : List PyVal → Except PyErr (List String)
  | [] => Except.ok []
  | PyVal.str s :: vs => do
    let rest ← asStrs vs
    Except.ok (s :: rest)
  | _ :: _ => Except.error PyErr.typeError

/-- Model of `flatten_parsed_data` (lines 118–153), producing the flat
record as an ordered key/value list (the insertion order of `flat_data`).
Every `.get` on a non-dict raises `AttributeError`; `experience[0]` on a
truthy non-list raises (`KeyError` for dicts, `AttributeError` one step
later for strings, `TypeError` otherwise); the skills concatenation raises
`TypeError` unless both operands are lists of strings. -/
def flatten_parsed_data (parsed_data : PyVal) : Except PyErr (List (String × PyVal)) := do
  let fullName ← pyGet parsed_data ("full_name") PyVal.none
  let ci ← pyGet parsed_data ("contact_information") (PyVal.dict [])
  let email ← pyGet ci ("email") PyVal.none
  let phone ← pyGet ci ("phone") PyVal.none
  let pl ← pyGet parsed_data ("professional_links") (PyVal.dict [])
  let linkedin ← pyGet pl ("linkedin") PyVal.none
  let github ← pyGet pl ("github") PyVal.none
  let portfolio ← pyGet pl ("portfolio") PyVal.none
  let summary ← pyGet parsed_data ("summary") PyVal.none
  let experience ← pyGet parsed_data ("experience") (PyVal.list [])
  let years0 ← pyGet parsed_data ("total_experience_years") (PyVal.int 0)
  let yearsOfExp ←
    if ¬ pyTruthy years0 ∧ pyTruthy experience then do
      let n ← calculate_experience_fallback experience
      pure (PyVal.int n)
    else pure years0
  let tcf ←
    if pyTruthy experience then
      match experience with
      | PyVal.list (latest :: rest) => do
        let t ← pyGet latest ("position") (PyVal.str "")
        let c ← pyGet latest ("company") (PyVal.str "")
        let strs ← expStrings (latest :: rest)
        pure (t, c, PyVal.str (String.intercalate (" | ") strs))
      | PyVal.dict _ => Except.error PyErr.keyError
      | PyVal.str _ => Except.error PyErr.attributeError
      | _ => Except.error PyErr.typeError
    else pure (PyVal.str "", PyVal.str "", PyVal.str "")
  let skills ← pyGet parsed_data ("skills") (PyVal.dict [])
  let technical ← pyGet skills ("technical") (PyVal.list [])
  let soft ← pyGet skills ("soft") (PyVal.list [])
  let allSkills ←
    match technical, soft with
    | PyVal.list ts, PyVal.list ss => do
      let strs ← asStrs (ts ++ ss)
      pure (String.intercalate (", ") strs)
    | _, _ => Except.error PyErr.typeError
  Except.ok
    [("FullName", fullName), ("Email", email), ("Phone", phone),
      ("LinkedIn", linkedin), ("GitHub", github), ("Portfolio", portfolio),
      ("Summary", summary), ("YearsOfExperience", yearsOfExp), ("Title", tcf.1),
      ("Company", tcf.2.1), ("FullExperience", tcf.2.2),
      ("Skills", PyVal.str allSkills)]

/-! ## The batch loop `run_extraction`

Per URL, the loop's collaborators are summarized by a `UrlEnv`:
`download` is `download_file`'s result (a file path, or `None` on a request
failure), `text` is `read_resume_text`'s result (both functions catch their
own exceptions and return `None`), `sdk` is the SDK outcome behind
`extract_resume_data` for this text, and `writeOk` tells whether opening
and writing the per-item JSON file succeeds.  `BatchState` tracks the
appended rows and the files on disk; an uncaught exception carries the
state at the moment of the raise. -/

/-- Per-URL behaviour of the external collaborators. -/
structure UrlEnv where
  url : String
  download : Option String
  text : Option String
  sdk : Except String String
  writeOk : Bool

/-- Observable state of a batch run. -/
structure BatchState where
  results : List (List (String × PyVal))
  tempFiles : List String
  jsonFiles : List String

/-- Python `url.startswith('http')`, over the character list so that it
computes definitionally. -/
def pyStartsWith (s pre : String) : Bool := pre.data.isPrefixOf s.data

/-- Create (or overwrite) a file on disk. -/
def addFile (fs : List String) (f : String) : List String :=
  if f ∈ fs then fs else fs ++ [f]

/-- Model of `os.remove` guarded by `os.path.exists`. -/
def removeFile (fs : List String) (f : String) : List String :=
  fs.filter (fun g => g ≠ f)

/-- One iteration of the `for url in RESUME_URLS` loop (lines 165–217).
The `try` block catches only `json.JSONDecodeError`; any other exception
(`.error`) aborts the whole run, skipping both the row append and the
temp-file removal.  The provider is the module constant `PROVIDER =
'ollama'`. -/
def step (cfg : Config) (st : BatchState) (env : UrlEnv) :
    Except (PyErr × BatchState) BatchState :=
  let row0 := [("Resume_URL", PyVal.str env.url)]
  if ¬ pyStartsWith env.url ("http") then
    Except.ok { st with
      results := st.results ++ [row0 ++ [("Status", PyVal.str ("Skipped - Invalid URL"))]] }
  else
    match env.download with
    | Option.none =>
      Except.ok { st with
        results := st.results ++ [row0 ++ [("Status", PyVal.str ("Failed - Download"))]] }
    | some filepath =>
      let st1 := { st with tempFiles := addFile st.tempFiles filepath }
      match env.text with
      | Option.none =>
        Except.ok { st1 with
          results := st1.results ++
            [row0 ++ [("Status", PyVal.str ("Failed - Text Extraction or Unsupported .doc"))]],
          tempFiles := removeFile st1.tempFiles filepath }
      | some _ =>
        let parserOutput := extract_resume_data cfg env.sdk ("ollama")
        match pyJsonLoads parserOutput with
        | Option.none =>
          Except.ok { st1 with
            results := st1.results ++ [row0 ++ [("Status", PyVal.str ("Failed - JSON Decode"))]],
            tempFiles := removeFile st1.tempFiles filepath }
        | some parsed =>
          match pyGet parsed ("error") PyVal.none with
          | Except.error e => Except.error (e, st1)
          | Except.ok errv =>
            if pyTruthy errv then
              match pyGet parsed ("message") PyVal.none with
              | Except.error e => Except.error (e, st1)
              | Except.ok msg =>
                Except.ok { st1 with
                  results := st1.results ++
                    [row0 ++ [("Status", PyVal.str ("Failed - Parser Error: " ++ pyStr msg))]],
                  tempFiles := removeFile st1.tempFiles filepath }
            else
              match outputFilename parsed with
              | Except.error e => Except.error (e, st1)
              | Except.ok fname =>
                if env.writeOk then
                  let st2 := { st1 with
                    jsonFiles := addFile st1.jsonFiles ("__BATCH_OUTPUTS__/" ++ fname) }
                  match flatten_parsed_data parsed with
                  | Except.error e => Except.error (e, st2)
                  | Except.ok flat =>
                    Except.ok { st2 with
                      results := st2.results ++
                        [row0 ++ flat ++ [("Status", PyVal.str ("Processed"))]],
                      tempFiles := removeFile st2.tempFiles filepath }
                else Except.error (PyErr.osError, st1)

/-- Folding `step` over the URL list from a given state. -/
def runFrom (cfg : Config) (st : BatchState) :
    List UrlEnv → Except (PyErr × BatchState) BatchState
  | [] => Except.ok st
  | env :: envs =>
    match step cfg st env with
    | Except.error e => Except.error e
    | Except.ok st' => runFrom cfg st' envs

/-- The empty starting state. -/
def initState : BatchState := { results := [], tempFiles := [], jsonFiles := [] }

/-- Model of `run_extraction` (lines 157–230): `some rows` exactly when the
final CSV report is written, carrying its rows (the DataFrame has one row
per element of `extraction_results`); `none` when the URL list is empty
(early return at line 161) or an uncaught exception aborts the run before
`to_csv`. -/
def run_extraction (cfg : Config) (envs : List UrlEnv) :
    Option (List (List (String × PyVal))) :=
  if envs.isEmpty then Option.none
  else
    match runFrom cfg initState envs with
    | Except.ok st => some st.results
    | Except.error _ => Option.none

/-! ## Derived predicates and characterizations

These are not source functions: they name the conditions and field values
the theorems below are about. -/

/-- The fallback of §4.4 as claim C2 words it, determined by the set of
distinct years found: `max − min` when at least two distinct years are
found, 1 when exactly one year is found, 0 when none.  Stated from the
claim's wording, for comparison with `calculate_experience_fallback`. -/
def fallbackSpecDistinct (yearsFound : List Int) : Int :=
  let distinct := yearsFound.dedup
  match distinct with
  | [] => 0
  | y :: ys => if 2 ≤ (y :: ys).length then listMax y ys - listMin y ys else 1

/-- Whether a value is a Python dict. -/
def isDictVal : PyVal → Bool
  | PyVal.dict _ => true
  | _ => false

/-- Whether a value is a Python str. -/
def isStrVal : PyVal → Bool
  | PyVal.str _ => true
  | _ => false

/-- Whether a value is a list of strings. -/
def isStrListVal : PyVal → Bool
  | PyVal.list xs => xs.all isStrVal
  | _ => false

/-- Whether a value is a list of dicts. -/
def isDictListVal : PyVal → Bool
  | PyVal.list xs => xs.all isDictVal
  | _ => false

/-- Check an optional value, accepting absence. -/
def optCheck (p : PyVal → Bool) : Option PyVal → Bool
  | Option.none => true
  | some v => p v

/-- The nested fields of a parsed record have the schema's shapes wherever
they are present: exactly the condition under which `flatten_parsed_data`
cannot raise. -/
def flattenSafe : PyVal → Bool
  | PyVal.dict es =>
    optCheck isDictVal (dictLookup es "contact_information") &&
    optCheck isDictVal (dictLookup es "professional_links") &&
    optCheck isDictListVal (dictLookup es "experience") &&
    (match dictLookup es "skills" with
     | Option.none => true
     | some (PyVal.dict ses) =>
       optCheck isStrListVal (dictLookup ses "technical") &&
       optCheck isStrListVal (dictLookup ses "soft")
     | some _ => false)
  | _ => false

/-- The `full_name` field, when present, is a string — the condition under
which the filename comprehension cannot raise. -/
def fullNameOk (es : List (String × PyVal)) : Bool :=
  match dictLookup es "full_name" with
  | some (PyVal.str _) => true
  | some _ => false
  | Option.none => true

/-- A decoded parser output the loop body handles without an uncaught
exception: an error envelope (truthy `error` key), or a record that is safe
to name, write and flatten. -/
def recordHandled (parsed : PyVal) (writeOk : Bool) : Bool :=
  match parsed with
  | PyVal.dict es =>
    if pyTruthy ((dictLookup es "error").getD PyVal.none) then true
    else flattenSafe (PyVal.dict es) && fullNameOk es && writeOk
  | _ => false

/-- After a successful download, the loop body reaches one of its four
handled exit paths: text-extraction failure, JSON-decode failure, a parser
error envelope, or a fully processed record. -/
def handledAfterDownload (cfg : Config) (env : UrlEnv) : Bool :=
  env.text.isNone ||
    (match pyJsonLoads (extract_resume_data cfg env.sdk ("ollama")) with
     | Option.none => true
     | some parsed => recordHandled parsed env.writeOk)

/-- The loop body for this URL completes without an uncaught exception. -/
def handledEnv (cfg : Config) (env : UrlEnv) : Bool :=
  (! pyStartsWith env.url ("http")) || env.download.isNone || handledAfterDownload cfg env

/-- Value of the `Email`/`Phone`/`LinkedIn`/`GitHub`/`Portfolio` columns: a
sub-key of an optional nested object. -/
def nestedField (es : List (String × PyVal)) (key sub : String) : PyVal :=
  match (dictLookup es key).getD (PyVal.dict []) with
  | PyVal.dict inner => (dictLookup inner sub).getD PyVal.none
  | _ => PyVal.none

/-- Value of the `YearsOfExperience` column on a safe record. -/
def yearsField (es : List (String × PyVal)) : PyVal :=
  if ¬ pyTruthy ((dictLookup es "total_experience_years").getD (PyVal.int 0)) ∧
      pyTruthy ((dictLookup es "experience").getD (PyVal.list [])) then
    match calculate_experience_fallback ((dictLookup es "experience").getD (PyVal.list [])) with
    | Except.ok n => PyVal.int n
    | Except.error _ => PyVal.none
  else (dictLookup es "total_experience_years").getD (PyVal.int 0)

/-- Value of the `Title` column on a safe record. -/
def titleField (es : List (String × PyVal)) : PyVal :=
  match (dictLookup es "experience").getD (PyVal.list []) with
  | PyVal.list (PyVal.dict latest :: _) => (dictLookup latest "position").getD (PyVal.str "")
  | _ => PyVal.str ""

/-- Value of the `Company` column on a safe record. -/
def companyField (es : List (String × PyVal)) : PyVal :=
  match (dictLookup es "experience").getD (PyVal.list []) with
  | PyVal.list (PyVal.dict latest :: _) => (dictLookup latest "company").getD (PyVal.str "")
  | _ => PyVal.str ""

/-- Value of the `FullExperience` column on a safe record. -/
def fullExperienceField (es : List (String × PyVal)) : PyVal :=
  match (dictLookup es "experience").getD (PyVal.list []) with
  | PyVal.list (j :: js) =>
    match expStrings (j :: js) with
    | Except.ok strs => PyVal.str (String.intercalate (" | ") strs)
    | Except.error _ => PyVal.str ""
  | _ => PyVal.str ""

/-- Value of the `Skills` column on a safe record. -/
def skillsField (es : List (String × PyVal)) : PyVal :=
  match (dictLookup es "skills").getD (PyVal.dict []) with
  | PyVal.dict ses =>
    match (dictLookup ses "technical").getD (PyVal.list []),
        (dictLookup ses "soft").getD (PyVal.list []) with
    | PyVal.list ts, PyVal.list ss =>
      match asStrs (ts ++ ss) with
      | Except.ok strs => PyVal.str (String.intercalate (", ") strs)
      | Except.error _ => PyVal.str ""
    | _, _ => PyVal.str ""
  | _ => PyVal.str ""

/-! ## Helper lemmas -/

/-- Bind on a successful `Except` computation. -/
theorem ok_bind {ε α β : Type} (a : α) (f : α → Except ε β) :
    ((Except.ok a : Except ε α) >>= f) = f a := rfl

/-- The `.get` of a dict never raises. -/
theorem pyGet_dict (es : List (String × PyVal)) (k : String) (d : PyVal) :
    pyGet (PyVal.dict es) k d = Except.ok ((dictLookup es k).getD d) := rfl

/-- A left fold of `min` is bounded by its initial value. -/
theorem foldl_min_le (ys : List Int) : ∀ y : Int, ys.foldl min y ≤ y := by
  induction ys with
  | nil => intro y; simp
  | cons z zs ih =>
    intro y
    simpa using le_trans (ih (min y z)) (min_le_left y z)

/-- A left fold of `max` is bounded below by its initial value. -/
theorem le_foldl_max (ys : List Int) : ∀ y : Int, y ≤ ys.foldl max y := by
  induction ys with
  | nil => intro y; simp
  | cons z zs ih =>
    intro y
    simpa using le_trans (le_max_left y z) (ih (max y z))

/-- Python `min` never exceeds Python `max` on the same nonempty list. -/
theorem listMin_le_listMax (y : Int) (ys : List Int) : listMin y ys ≤ listMax y ys :=
  le_trans (foldl_min_le ys y) (le_foldl_max ys y)

/-- A letter or digit is not Python whitespace. -/
theorem alnum_not_space (c : Char) (h : pyIsAlpha c = true ∨ pyIsDigit c = true) :
    pyIsSpace c = false := by
  by_contra hs
  rw [Bool.not_eq_false] at hs
  simp only [pyIsSpace, decide_eq_true_eq] at hs
  rcases hs with rfl | rfl | rfl | rfl | rfl | rfl <;> revert h <;> decide

/-- A letter or digit is not the space character. -/
theorem alnum_ne_space (c : Char) (h : pyIsAlpha c = true ∨ pyIsDigit c = true) :
    c ≠ ' ' := by
  rintro rfl
  revert h; decide

/-- Dropping while a universally false predicate holds drops nothing. -/
theorem dropWhile_all_neg {p : Char → Bool} :
    ∀ l : List Char, (∀ c ∈ l, p c = false) → l.dropWhile p = l
  | [], _ => rfl
  | c :: cs, h => by
    simp [List.dropWhile_cons, h c (by simp)]

/-- `rstrip` keeps a list with no whitespace intact. -/
theorem pyRstrip_eq_self (l : List Char) (h : ∀ c ∈ l, pyIsSpace c = false) :
    pyRstrip l = l := by
  unfold pyRstrip
  rw [dropWhile_all_neg _ (fun c hc => h c (List.mem_reverse.mp hc)), List.reverse_reverse]

/-- The space-to-underscore replacement keeps a space-free list intact. -/
theorem map_replace_eq_self (l : List Char) (h : ∀ c ∈ l, c ≠ ' ') :
    l.map (fun c => if c = ' ' then '_' else c) = l := by
  conv_rhs => rw [← List.map_id l]
  exact List.map_congr_left (fun c hc => by simp [h c hc])

/-! ## Claim C7 — idempotence of sanitization -/

/-- C7 counterexample: the name sanitization is not idempotent.  `"a b"`
sanitizes to `"a_b"`, but sanitizing `"a_b"` again yields `"ab"`, because
the underscore introduced by the space replacement is neither alphanumeric
nor a space and is dropped by the second pass. -/
theorem c7_counterexample :
    sanitizeName ("a b") = "a_b" ∧ sanitizeName (sanitizeName ("a b")) = "ab" ∧
      sanitizeName (sanitizeName ("a b")) ≠ sanitizeName ("a b") := by
  refine ⟨rfl, rfl, ?_⟩
  decide

/-- C7 amended: sanitization is idempotent on inputs containing no space
character (then no underscore is introduced, the result is purely
alphanumeric, and a second pass keeps every character). -/
theorem c7_idempotent_amended (s : String) (h : ∀ c ∈ s.data, c ≠ ' ') :
    sanitizeName (sanitizeName s) = sanitizeName s := by
  have halnum : ∀ c ∈ s.data.filter (fun c => pyIsAlpha c || pyIsDigit c || decide (c = ' ')),
      pyIsAlpha c = true ∨ pyIsDigit c = true := by
    intro c hc
    rw [List.mem_filter] at hc
    rcases hc with ⟨hmem, hq⟩
    simp only [Bool.or_eq_true, decide_eq_true_eq] at hq
    rcases hq with (hq | hq) | hq
    · exact Or.inl hq
    · exact Or.inr hq
    · exact absurd hq (h c hmem)
  set l1 := s.data.filter (fun c => pyIsAlpha c || pyIsDigit c || decide (c = ' ')) with hl1
  have hr : pyRstrip l1 = l1 :=
    pyRstrip_eq_self l1 (fun c hc => alnum_not_space c (halnum c hc))
  have hm : l1.map (fun c => if c = ' ' then '_' else c) = l1 :=
    map_replace_eq_self l1 (fun c hc => alnum_ne_space c (halnum c hc))
  have hs1 : sanitizeName s = String.mk l1 := by
    unfold sanitizeName
    rw [← hl1, hr, hm]
  rw [hs1]
  have hfilter : l1.filter (fun c => pyIsAlpha c || pyIsDigit c || decide (c = ' ')) = l1 := by
    rw [List.filter_eq_self]
    intro c hc
    rcases halnum c hc with hq | hq <;> simp [hq]
  unfold sanitizeName
  rw [show (String.mk l1).data = l1 from rfl, hfilter, hr, hm]

/-- C7 witness: the amended idempotence at the space-free name `"ab3"`. -/
theorem c7_witness : sanitizeName (sanitizeName ("ab3")) = sanitizeName ("ab3") :=
  c7_idempotent_amended ("ab3") (by decide)

/-! ## Claim C8 — the per-item output filename -/

/-- C8 counterexample: a full name that sanitizes to the empty string is
not replaced by the fallback literal; the output filename becomes bare
`".json"` with an empty stem. -/
theorem c8_counterexample :
    outputFilename (PyVal.dict [("full_name", PyVal.str "###")]) = Except.ok (".json") ∧
      sanitizeName ("###") = "" := ⟨rfl, rfl⟩

/-- C8 amended: the filename is the sanitized full name plus `.json`; the
fallback literal `'parsed_resume'` enters only when the `full_name` key is
absent — and it, too, is sanitized, so the fallback stem is
`parsedresume`.  When the name sanitizes to the empty string the stem is
empty; no second fallback exists. -/
theorem c8_filename_amended :
    (∀ es, dictLookup es "full_name" = Option.none →
      outputFilename (PyVal.dict es) = Except.ok ("parsedresume.json"))
  ∧ (∀ es s, dictLookup es "full_name" = some (PyVal.str s) →
      outputFilename (PyVal.dict es) = Except.ok (sanitizeName s ++ ".json")) := by
  constructor
  · intro es hl
    unfold outputFilename
    rw [pyGet_dict, hl]
    rfl
  · intro es s hl
    unfold outputFilename
    rw [pyGet_dict, hl]
    rfl

/-- C8 witness: the amended statement at a missing name and at
`"Jane Doe"`. -/
theorem c8_witness :
    outputFilename (PyVal.dict []) = Except.ok ("parsedresume.json") ∧
      outputFilename (PyVal.dict [("full_name", PyVal.str "Jane Doe")]) =
        Except.ok ("Jane_Doe.json") := by
  constructor
  · exact c8_filename_amended.1 [] rfl
  · exact c8_filename_amended.2 [("full_name", PyVal.str "Jane Doe")] ("Jane Doe") rfl

/-! ## Claim C6 — code-fence stripping -/

/-- C6 counterexample: with valid credentials, a fenced backend output is
returned to the caller unchanged — fences intact — by both the ollama and
the openai paths. -/
theorem c6_counterexample :
    extract_resume_data ⟨some "sk-test", some "g-test", "llama3"⟩
        (Except.ok "```json\n\x7b\"a\": 1\x7d\n```") ("ollama") =
      "```json\n\x7b\"a\": 1\x7d\n```" ∧
    extract_resume_data ⟨some "sk-test", some "g-test", "llama3"⟩
        (Except.ok "```json\n\x7b\"a\": 1\x7d\n```") ("openai") =
      "```json\n\x7b\"a\": 1\x7d\n```" :=
  ⟨rfl, rfl⟩

/-- C6 amended: only the gemini backend strips Markdown code fences (strip,
then remove every ```` ```json ```` and every ```` ``` ````); the openai
and ollama backends return the SDK content verbatim. -/
theorem c6_fence_strip_amended (cfg : Config) (s : String)
    (hg : strTruthy cfg.googleKey = true) (hg2 : cfg.googleKey ≠ some geminiPlaceholder) :
    extract_resume_data cfg (Except.ok s) ("gemini") =
      String.mk (removeAll ("```").data (removeAll ("```json").data (pyStrip s).data)) ∧
    (strTruthy cfg.openaiKey = true → cfg.openaiKey ≠ some openaiPlaceholder →
      extract_resume_data cfg (Except.ok s) ("openai") = s) ∧
    extract_resume_data cfg (Except.ok s) ("ollama") = s := by
  refine ⟨?_, ?_, rfl⟩
  · unfold extract_resume_data dispatch call_gemini
    simp [hg, hg2]
  · intro ho ho2
    unfold extract_resume_data dispatch call_openai
    simp [ho, ho2]

/-- C6 witness: the amended statement at a concrete configuration and a
fenced output. -/
theorem c6_witness :
    extract_resume_data ⟨some "sk-test", some "g-test", "llama3"⟩
        (Except.ok "```json\n\x7b\x7d\n```") ("gemini") = "\n\x7b\x7d\n" ∧
    extract_resume_data ⟨some "sk-test", some "g-test", "llama3"⟩
        (Except.ok "```json\n\x7b\x7d\n```") ("ollama") = "```json\n\x7b\x7d\n```" := by
  have h := c6_fence_strip_amended ⟨some "sk-test", some "g-test", "llama3"⟩
    ("```json\n\x7b\x7d\n```") (by decide) (by decide)
  exact ⟨h.1, h.2.2⟩

/-! ## Claims C2 and C10 — the experience fallback -/

/-- Iterating dict entries never raises, and yields the concatenation of
the per-entry year scans. -/
theorem collectYears_dicts :
    ∀ jobs : List PyVal, (∀ j ∈ jobs, ∃ es, j = PyVal.dict es) →
      ∃ ys, collectYears jobs = Except.ok ys := by
  intro jobs
  induction jobs with
  | nil => exact fun _ => ⟨[], rfl⟩
  | cons j js ih =>
    intro h
    obtain ⟨es, rfl⟩ := h j (by simp)
    obtain ⟨ys, hys⟩ := ih (fun j hj => h j (by simp [hj]))
    refine ⟨findYears (pyStr ((dictLookup es "duration").getD (PyVal.str ""))) ++ ys, ?_⟩
    simp only [collectYears, jobYears, pyGet_dict, ok_bind, hys]

/-- C2 counterexample: on durations carrying the year 2020 twice, the
distinct years found are exactly `{2020}`, so the claim's reading (exactly
one year found ⇒ 1) predicts 1; the code counts tokens with multiplicity
(`len(years) > 1`) and returns `max − min = 0`. -/
theorem c2_counterexample :
    calculate_experience_fallback
        (PyVal.list [PyVal.dict [("duration", PyVal.str "2020")],
          PyVal.dict [("duration", PyVal.str "2020")]]) = Except.ok 0 ∧
    collectYears [PyVal.dict [("duration", PyVal.str "2020")],
        PyVal.dict [("duration", PyVal.str "2020")]] = Except.ok [2020, 2020] ∧
    ([2020, 2020] : List Int).dedup = [2020] ∧
    fallbackSpecDistinct [2020, 2020] = 1 ∧
    fallbackSpecDistinct [2020, 2020] ≠ 0 := by
  refine ⟨rfl, rfl, by decide, by decide, by decide⟩

/-- On a list of dict entries the fallback returns a non-negative integer
and never raises. -/
theorem fallback_ok_nonneg :
    ∀ jobs : List PyVal, (∀ j ∈ jobs, ∃ es, j = PyVal.dict es) →
      ∃ n : Int, calculate_experience_fallback (PyVal.list jobs) = Except.ok n ∧ 0 ≤ n := by
  intro jobs hdicts
  match jobs with
  | [] => exact ⟨0, rfl, le_refl 0⟩
  | j :: js =>
    obtain ⟨ys, hys⟩ := collectYears_dicts (j :: js) hdicts
    match ys, hys with
    | [], hys =>
      refine ⟨0, ?_, le_refl 0⟩
      simp [calculate_experience_fallback, pyTruthy, hys, ok_bind]
    | [y], hys =>
      refine ⟨1, ?_, by omega⟩
      simp [calculate_experience_fallback, pyTruthy, hys, ok_bind]
    | y :: y2 :: ys', hys =>
      refine ⟨listMax y (y2 :: ys') - listMin y (y2 :: ys'), ?_, ?_⟩
      · simp [calculate_experience_fallback, pyTruthy, hys, ok_bind, listMax, listMin]
      · have h := listMin_le_listMax y (y2 :: ys')
        omega

/-- C10: on a list of dict entries the fallback returns a non-negative
integer and never raises, whatever the type of each `duration` value —
`str(...)` coerces it before the year scan. -/
theorem c10_fallback_total_nonneg :
    ∀ jobs : List PyVal, (∀ j ∈ jobs, ∃ es, j = PyVal.dict es) →
      ∃ n : Int, calculate_experience_fallback (PyVal.list jobs) = Except.ok n ∧ 0 ≤ n :=
  fallback_ok_nonneg

/-- C10 witness: the fallback at a dict entry whose duration is the number
2020, not a string. -/
theorem c10_witness :
    ∃ n : Int, calculate_experience_fallback
      (PyVal.list [PyVal.dict [("duration", PyVal.int 2020)]]) = Except.ok n ∧ 0 ≤ n :=
  c10_fallback_total_nonneg [PyVal.dict [("duration", PyVal.int 2020)]]
    (by intro j hj; simp at hj; exact ⟨_, hj⟩)

/-! ## Round trip: the serialized error envelope parses back

Needed for claims C1 (the dispatcher's error envelope is valid JSON for
every message) and C3–C5 (the batch loop decodes that envelope). -/

/-- Encoding then decoding one hex digit. -/
theorem hexVal_hexDig (n : Nat) (h : n < 16) : hexVal (hexDig n) = some n := by
  interval_cases n <;> decide

/-- Encoding then decoding four hex digits. -/
theorem hex4Val_hex4 (n : Nat) (h : n < 65536) :
    hex4Val (hexDig (n / 4096 % 16)) (hexDig (n / 256 % 16)) (hexDig (n / 16 % 16))
      (hexDig (n % 16)) = some n := by
  have e1 := hexVal_hexDig (n / 4096 % 16) (Nat.mod_lt _ (by omega))
  have e2 := hexVal_hexDig (n / 256 % 16) (Nat.mod_lt _ (by omega))
  have e3 := hexVal_hexDig (n / 16 % 16) (Nat.mod_lt _ (by omega))
  have e4 := hexVal_hexDig (n % 16) (Nat.mod_lt _ (by omega))
  simp only [hex4Val, e1, e2, e3, e4, Option.some.injEq]
  omega

/-- The scalar value of a character is never in the surrogate gap and is
below `0x110000`. -/
theorem char_toNat_valid (c : Char) :
    c.toNat < 55296 ∨ (57344 ≤ c.toNat ∧ c.toNat < 1114112) := c.valid

/-- One parser step across a `\uXXXX` escape outside the surrogate range. -/
theorem psb_u_step (f : Nat) (d1 d2 d3 d4 : Char) (rest : List Char) (n : Nat)
    (hh : hex4Val d1 d2 d3 d4 = some n) (hval : n < 55296 ∨ 57344 ≤ n) :
    parseStringBodyF (f + 1) ('\\' :: 'u' :: d1 :: d2 :: d3 :: d4 :: rest) =
      (parseStringBodyF f rest).map (fun p => (Char.ofNat n :: p.1, p.2)) := by
  rw [parseStringBodyF]
  simp only [hh, reduceIte]
  rw [if_neg (show ¬(55296 ≤ n ∧ n < 56320) by omega)]
  rw [if_neg (show ¬(56320 ≤ n ∧ n < 57344) by omega)]
  rw [if_neg (show ¬('\\' = '"') by decide)]

/-- One parser step across a surrogate-pair escape. -/
theorem psb_surrogate_step (f : Nat) (d1 d2 d3 d4 g1 g2 g3 g4 : Char) (rest : List Char)
    (n m : Nat) (hh : hex4Val d1 d2 d3 d4 = some n) (hg : hex4Val g1 g2 g3 g4 = some m)
    (hn : 55296 ≤ n ∧ n < 56320) (hm : 56320 ≤ m ∧ m < 57344) :
    parseStringBodyF (f + 1)
      ('\\' :: 'u' :: d1 :: d2 :: d3 :: d4 :: '\\' :: 'u' :: g1 :: g2 :: g3 :: g4 :: rest) =
      (parseStringBodyF f rest).map
        (fun p => (Char.ofNat (65536 + (n - 55296) * 1024 + (m - 56320)) :: p.1, p.2)) := by
  rw [parseStringBodyF]
  simp only [hh, hg, reduceIte]
  rw [if_pos hn, if_pos hm]
  rw [if_neg (show ¬('\\' = '"') by decide)]
  simp

/-- Parsing one escaped character: each `escChar` unit is consumed by one
parser step. -/
theorem parseStringBodyF_escChar (c : Char) (f : Nat) (tail : List Char) :
    parseStringBodyF (f + 1) (escChar c ++ tail) =
      (parseStringBodyF f tail).map (fun p => (c :: p.1, p.2)) := by
  by_cases h1 : c = '"'
  · subst h1; simp [parseStringBodyF, simpleEsc]
  by_cases h2 : c = '\\'
  · subst h2; simp [parseStringBodyF, simpleEsc]
  by_cases h3 : c = '\n'
  · subst h3; simp [parseStringBodyF, simpleEsc]
  by_cases h4 : c = '\t'
  · subst h4; simp [parseStringBodyF, simpleEsc]
  by_cases h5 : c = '\r'
  · subst h5; simp [parseStringBodyF, simpleEsc]
  by_cases h6 : c = Char.ofNat 8
  · subst h6; simp [parseStringBodyF, simpleEsc]
  by_cases h7 : c = Char.ofNat 12
  · subst h7; simp [parseStringBodyF, simpleEsc]
  by_cases h8 : c.toNat < 32 ∨ 126 < c.toNat
  · have hval := char_toNat_valid c
    by_cases h9 : c.toNat < 65536
    · have hesc : escChar c = '\\' :: 'u' :: hex4 c.toNat := by
        unfold escChar
        rw [if_neg h1, if_neg h2, if_neg h3, if_neg h4, if_neg h5, if_neg h6, if_neg h7,
          if_pos h8, if_pos h9]
      rw [hesc]
      simp only [hex4, List.cons_append, List.nil_append]
      rw [psb_u_step f _ _ _ _ _ c.toNat (hex4Val_hex4 c.toNat h9) (by omega)]
      rw [Char.ofNat_toNat]
    · have hesc : escChar c =
          ('\\' :: 'u' :: hex4 (55296 + (c.toNat - 65536) / 1024)) ++
            ('\\' :: 'u' :: hex4 (56320 + (c.toNat - 65536) % 1024)) := by
        unfold escChar
        rw [if_neg h1, if_neg h2, if_neg h3, if_neg h4, if_neg h5, if_neg h6, if_neg h7,
          if_pos h8, if_neg h9]
      rw [hesc]
      have hv2 : (c.toNat - 65536) % 1024 < 1024 := Nat.mod_lt _ (by omega)
      have hv1 : (c.toNat - 65536) / 1024 < 1024 := by omega
      simp only [hex4, List.cons_append, List.nil_append, List.append_assoc]
      rw [psb_surrogate_step f _ _ _ _ _ _ _ _ _
        (55296 + (c.toNat - 65536) / 1024) (56320 + (c.toNat - 65536) % 1024)
        (hex4Val_hex4 _ (by omega)) (hex4Val_hex4 _ (by omega))
        (by omega) (by omega)]
      have harith : 65536 + (55296 + (c.toNat - 65536) / 1024 - 55296) * 1024 +
          (56320 + (c.toNat - 65536) % 1024 - 56320) = c.toNat := by
        omega
      rw [harith, Char.ofNat_toNat]
  · have hesc : escChar c = [c] := by
      unfold escChar
      rw [if_neg h1, if_neg h2, if_neg h3, if_neg h4, if_neg h5, if_neg h6, if_neg h7,
        if_neg h8]
    rw [hesc]
    simp [parseStringBodyF, h1, h2]

/-- Each character escapes to at least one character. -/
theorem escChar_length_pos (c : Char) : 1 ≤ (escChar c).length := by
  unfold escChar
  repeat' split
  all_goals simp

/-- The escape of a string is at least as long as the string. -/
theorem length_le_escapeL : ∀ cs : List Char, cs.length ≤ (escapeL cs).length
  | [] => le_refl 0
  | c :: cs => by
    simp only [escapeL, List.length_append, List.length_cons]
    have h1 := escChar_length_pos c
    have h2 := length_le_escapeL cs
    omega

/-- Parsing an escaped string body followed by a closing quote recovers the
string, given fuel beyond the character count. -/
theorem parseStringBodyF_escape :
    ∀ (cs : List Char) (fuel : Nat) (rest : List Char), cs.length < fuel →
      parseStringBodyF fuel (escapeL cs ++ '"' :: rest) = some (cs, rest)
  | [], fuel, rest, h => by
    obtain ⟨f, rfl⟩ : ∃ f, fuel = f + 1 := ⟨fuel - 1, by omega⟩
    simp [escapeL, parseStringBodyF]
  | c :: cs, fuel, rest, h => by
    obtain ⟨f, rfl⟩ : ∃ f, fuel = f + 1 := ⟨fuel - 1, by omega⟩
    simp only [escapeL, List.append_assoc]
    rw [parseStringBodyF_escChar]
    rw [parseStringBodyF_escape cs f rest (by simpa using h)]
    rfl

/-- The quoted body of any string parses back to that string. -/
theorem parseStringBody_escape (cs rest : List Char) :
    parseStringBody (escapeL cs ++ '"' :: rest) = some (cs, rest) := by
  unfold parseStringBody
  apply parseStringBodyF_escape
  have h1 := length_le_escapeL cs
  have h2 : (escapeL cs).length ≤ (escapeL cs ++ '"' :: rest).length := by simp
  omega

/-- The characters of the serialized envelope: a concrete skeleton around
the two escaped payload strings. -/
theorem envelope_data (m p : String) :
    (errorEnvelopeString m p).data =
      '\x7b' :: '\n' :: ' ' :: ' ' :: ' ' :: ' ' :: '"' :: 'e' :: 'r' :: 'r' :: 'o' :: 'r' ::
        '"' :: ':' :: ' ' :: 't' :: 'r' :: 'u' :: 'e' :: ',' :: '\n' :: ' ' :: ' ' :: ' ' ::
        ' ' :: '"' :: 'm' :: 'e' :: 's' :: 's' :: 'a' :: 'g' :: 'e' :: '"' :: ':' :: ' ' ::
        '"' :: (escapeL m.data ++ ('"' :: ',' :: '\n' :: ' ' :: ' ' :: ' ' :: ' ' :: '"' ::
        'p' :: 'r' :: 'o' :: 'v' :: 'i' :: 'd' :: 'e' :: 'r' :: '"' :: ':' :: ' ' :: '"' ::
        (escapeL p.data ++ ('"' :: '\n' :: '\x7d' :: [])))) := by
  unfold errorEnvelopeString jsonQuote
  simp only [String.data_append]
  simp [List.append_assoc]

/-- The grammar parser accepts the serialized envelope and recovers the
three members, for any message and provider strings. -/
theorem parseP_envelope (m p : String) (f : Nat) :
    parseP (f + 5) PMode.value ((errorEnvelopeString m p).data) =
      some (PResult.val (Json.obj [("error", Json.bool true), ("message", Json.str m),
        ("provider", Json.str p)]), []) := by
  have hkey1 : ∀ tail, parseStringBody ('e' :: 'r' :: 'r' :: 'o' :: 'r' :: '"' :: tail) =
      some (['e', 'r', 'r', 'o', 'r'], tail) :=
    fun tail => parseStringBody_escape ['e', 'r', 'r', 'o', 'r'] tail
  have hkey2 : ∀ tail, parseStringBody
      ('m' :: 'e' :: 's' :: 's' :: 'a' :: 'g' :: 'e' :: '"' :: tail) =
      some (['m', 'e', 's', 's', 'a', 'g', 'e'], tail) :=
    fun tail => parseStringBody_escape ['m', 'e', 's', 's', 'a', 'g', 'e'] tail
  have hkey3 : ∀ tail, parseStringBody
      ('p' :: 'r' :: 'o' :: 'v' :: 'i' :: 'd' :: 'e' :: 'r' :: '"' :: tail) =
      some (['p', 'r', 'o', 'v', 'i', 'd', 'e', 'r'], tail) :=
    fun tail => parseStringBody_escape ['p', 'r', 'o', 'v', 'i', 'd', 'e', 'r'] tail
  rw [envelope_data]
  simp +decide only [parseP, skipWs, lbrace, rbrace, reduceIte, hkey1, hkey2, hkey3,
    parseStringBody_escape, Option.map_some, Option.map_some', Option.map_none']

/-- The serialized envelope parses as JSON, back to its three members. -/
theorem jsonParse_errorEnvelope (m p : String) :
    jsonParse (errorEnvelopeString m p) =
      some (Json.obj [("error", Json.bool true), ("message", Json.str m),
        ("provider", Json.str p)]) := by
  unfold jsonParse
  have h := parseP_envelope m p 995
  norm_num at h
  rw [h]
  rfl

/-- `json.loads` of the serialized envelope yields the envelope dict. -/
theorem pyJsonLoads_errorEnvelope (m p : String) :
    pyJsonLoads (errorEnvelopeString m p) =
      some (PyVal.dict [("error", PyVal.bool true), ("message", PyVal.str m),
        ("provider", PyVal.str p)]) := by
  unfold pyJsonLoads
  rw [jsonParse_errorEnvelope]
  rfl

/-! ## Claim C1 — the dispatcher's return value -/

/-- C1 counterexample: when the backend returns normally, its text is
passed through unchanged, so with a backend answering prose the dispatcher
returns a string that does not parse as JSON.  (The spec's own error
taxonomy (§7d) concedes this decode case; the claim's universal "always
parses as valid JSON" does not hold.) -/
theorem c1_counterexample :
    extract_resume_data ⟨some "sk-test", some "g-test", "llama3"⟩
      (Except.ok "hello") ("openai") = "hello" ∧
    jsonParse ("hello") = Option.none := ⟨rfl, rfl⟩

/-- C1 amended: `extract_resume_data` always returns normally.  Whenever an
exception is raised inside — unknown provider, missing or placeholder
credentials, or a backend exception — the returned string is the serialized
error envelope, it parses as valid JSON, and the parsed object carries
`error = true`, `message` = the exception's text, and `provider` = the
requested provider.  When the selected backend returns normally, its
(possibly fence-cleaned) string is returned as is, and need not be valid
JSON. -/
theorem c1_error_envelope_parses (cfg : Config) (sdk : Except String String)
    (provider msg : String) :
    (dispatch cfg sdk provider = Except.error msg →
      extract_resume_data cfg sdk provider = errorEnvelopeString msg provider ∧
      jsonParse (extract_resume_data cfg sdk provider) =
        some (Json.obj [("error", Json.bool true), ("message", Json.str msg),
          ("provider", Json.str provider)])) ∧
    (∀ s, dispatch cfg sdk provider = Except.ok s →
      extract_resume_data cfg sdk provider = s) := by
  constructor
  · intro h
    have he : extract_resume_data cfg sdk provider = errorEnvelopeString msg provider := by
      unfold extract_resume_data
      rw [h]
    exact ⟨he, by rw [he]; exact jsonParse_errorEnvelope msg provider⟩
  · intro s h
    unfold extract_resume_data
    rw [h]

/-- C1 witness: the amended claim at an unknown provider name. -/
theorem c1_witness :
    jsonParse (extract_resume_data ⟨some "sk-test", some "g-test", "llama3"⟩
        (Except.ok "x") ("bogus")) =
      some (Json.obj [("error", Json.bool true),
        ("message", Json.str ("Invalid provider specified: bogus. Choose \x27openai\x27, \x27gemini\x27, or \x27ollama\x27.")),
        ("provider", Json.str "bogus")]) :=
  ((c1_error_envelope_parses ⟨some "sk-test", some "g-test", "llama3"⟩ (Except.ok "x")
    ("bogus") ("Invalid provider specified: bogus. Choose \x27openai\x27, \x27gemini\x27, or \x27ollama\x27.")).1
    rfl).2

/-! ## Characterizing `flatten_parsed_data` on safe records -/

/-- Bind on a pure `Except` computation. -/
theorem except_pure_bind {ε α β : Type} (a : α) (f : α → Except ε β) :
    ((pure a : Except ε α) >>= f) = f a := rfl

/-- Being a dict, as an existential. -/
theorem isDictVal_iff (v : PyVal) : isDictVal v = true ↔ ∃ es, v = PyVal.dict es := by
  cases v <;> simp [isDictVal]

/-- A nested `.get` chain on a checked optional object never raises and
computes `nestedField`. -/
theorem pyGet_nested (es : List (String × PyVal)) (key sub : String)
    (h : optCheck isDictVal (dictLookup es key) = true) :
    pyGet ((dictLookup es key).getD (PyVal.dict [])) sub PyVal.none =
      Except.ok (nestedField es key sub) := by
  unfold nestedField
  cases hlk : dictLookup es key with
  | none => rfl
  | some v =>
    rw [hlk] at h
    cases v <;> simp_all [optCheck, isDictVal, pyGet]

/-- The fallback succeeds on any list of dicts (or visits no entry at all
when falsy). -/
theorem calc_ok_dictList (v : PyVal) (h : isDictListVal v = true) :
    ∃ n, calculate_experience_fallback v = Except.ok n := by
  cases v with
  | list jobs =>
    have hdicts : ∀ j ∈ jobs, ∃ es, j = PyVal.dict es := by
      intro j hj
      have := (List.all_eq_true.mp (by simpa [isDictListVal] using h)) j hj
      exact (isDictVal_iff j).mp this
    obtain ⟨n, hn, _⟩ := fallback_ok_nonneg jobs hdicts
    exact ⟨n, hn⟩
  | _ => simp_all [isDictListVal]

/-- Being a str, as an existential. -/
theorem isStrVal_iff (v : PyVal) : isStrVal v = true ↔ ∃ s, v = PyVal.str s := by
  cases v <;> simp [isStrVal]

/-- The experience summary comprehension succeeds on a list of dicts. -/
theorem expStrings_ok :
    ∀ jobs : List PyVal, (∀ j ∈ jobs, isDictVal j = true) →
      ∃ strs, expStrings jobs = Except.ok strs
  | [], _ => ⟨[], rfl⟩
  | j :: js, h => by
    obtain ⟨es, rfl⟩ := (isDictVal_iff j).mp (h j (by simp))
    obtain ⟨strs, hstrs⟩ := expStrings_ok js (fun j hj => h j (by simp [hj]))
    refine ⟨(pyStr ((dictLookup es "position").getD (PyVal.str "")) ++ " at " ++
      pyStr ((dictLookup es "company").getD (PyVal.str "")) ++ " (" ++
      pyStr ((dictLookup es "duration").getD (PyVal.str "")) ++ ")") :: strs, ?_⟩
    simp only [expStrings, pyGet_dict, ok_bind, hstrs]

/-- The skills join succeeds on a list of strings. -/
theorem asStrs_ok :
    ∀ vs : List PyVal, (∀ v ∈ vs, isStrVal v = true) →
      ∃ strs, asStrs vs = Except.ok strs
  | [], _ => ⟨[], rfl⟩
  | v :: vs, h => by
    obtain ⟨s, rfl⟩ := (isStrVal_iff v).mp (h v (by simp))
    obtain ⟨strs, hstrs⟩ := asStrs_ok vs (fun w hw => h w (by simp [hw]))
    exact ⟨s :: strs, by simp only [asStrs, hstrs, ok_bind]⟩

/-- On a safe record, `flatten_parsed_data` succeeds and every column has
its characterized value. -/
theorem flatten_spec (es : List (String × PyVal)) (h : flattenSafe (PyVal.dict es) = true) :
    flatten_parsed_data (PyVal.dict es) = Except.ok
      [("FullName", (dictLookup es "full_name").getD PyVal.none),
        ("Email", nestedField es "contact_information" "email"),
        ("Phone", nestedField es "contact_information" "phone"),
        ("LinkedIn", nestedField es "professional_links" "linkedin"),
        ("GitHub", nestedField es "professional_links" "github"),
        ("Portfolio", nestedField es "professional_links" "portfolio"),
        ("Summary", (dictLookup es "summary").getD PyVal.none),
        ("YearsOfExperience", yearsField es),
        ("Title", titleField es),
        ("Company", companyField es),
        ("FullExperience", fullExperienceField es),
        ("Skills", skillsField es)] := by
  have h' : optCheck isDictVal (dictLookup es "contact_information") = true ∧
      optCheck isDictVal (dictLookup es "professional_links") = true ∧
      optCheck isDictListVal (dictLookup es "experience") = true ∧
      (match dictLookup es "skills" with
       | Option.none => true
       | some (PyVal.dict ses) =>
         optCheck isStrListVal (dictLookup ses "technical") &&
         optCheck isStrListVal (dictLookup ses "soft")
       | some _ => false) = true := by
    simpa [flattenSafe, Bool.and_eq_true, and_assoc] using h
  obtain ⟨hci, hpl, hexp, hsk⟩ := h'
  unfold flatten_parsed_data
  simp only [pyGet_dict, ok_bind, pyGet_nested es ("contact_information") _ hci,
    pyGet_nested es ("professional_links") _ hpl]
  -- the experience value is a list of dicts
  have hexp' : isDictListVal ((dictLookup es "experience").getD (PyVal.list [])) = true := by
    cases hlk : dictLookup es "experience" with
    | none => rfl
    | some v => rw [hlk] at hexp; simpa [optCheck] using hexp
  obtain ⟨jobs, hjobs⟩ : ∃ jobs, (dictLookup es "experience").getD (PyVal.list []) =
      PyVal.list jobs := by
    rcases hv : (dictLookup es "experience").getD (PyVal.list []) <;>
      rw [hv] at hexp' <;> simp [isDictListVal] at hexp' <;> exact ⟨_, rfl⟩
  have hdicts : ∀ j ∈ jobs, isDictVal j = true := by
    rw [hjobs] at hexp'
    exact List.all_eq_true.mp (by simpa [isDictListVal] using hexp')
  -- the skills part
  have hskills : ∃ ts ss strs,
      pyGet ((dictLookup es "skills").getD (PyVal.dict [])) ("technical") (PyVal.list []) =
        Except.ok (PyVal.list ts) ∧
      pyGet ((dictLookup es "skills").getD (PyVal.dict [])) ("soft") (PyVal.list []) =
        Except.ok (PyVal.list ss) ∧
      asStrs (ts ++ ss) = Except.ok strs ∧
      skillsField es = PyVal.str (String.intercalate (", ") strs) := by
    cases hsklk : dictLookup es "skills" with
    | none =>
      exact ⟨[], [], [], rfl, rfl, rfl, by unfold skillsField; rw [hsklk]; rfl⟩
    | some v =>
      rw [hsklk] at hsk
      match v, hsk with
      | PyVal.dict ses, hsk =>
        obtain ⟨ht, hs⟩ : optCheck isStrListVal (dictLookup ses "technical") = true ∧
            optCheck isStrListVal (dictLookup ses "soft") = true := by simpa using hsk
        have htl : ∃ ts, (dictLookup ses "technical").getD (PyVal.list []) = PyVal.list ts ∧
            ∀ w ∈ ts, isStrVal w = true := by
          cases hlk : dictLookup ses "technical" with
          | none => exact ⟨[], rfl, by simp⟩
          | some w =>
            rw [hlk] at ht
            simp only [optCheck] at ht
            match w, ht with
            | PyVal.list ts, ht =>
              exact ⟨ts, rfl, List.all_eq_true.mp (by simpa [isStrListVal] using ht)⟩
        have hsl : ∃ ss, (dictLookup ses "soft").getD (PyVal.list []) = PyVal.list ss ∧
            ∀ w ∈ ss, isStrVal w = true := by
          cases hlk : dictLookup ses "soft" with
          | none => exact ⟨[], rfl, by simp⟩
          | some w =>
            rw [hlk] at hs
            simp only [optCheck] at hs
            match w, hs with
            | PyVal.list ss, hs =>
              exact ⟨ss, rfl, List.all_eq_true.mp (by simpa [isStrListVal] using hs)⟩
        obtain ⟨ts, hts, htstr⟩ := htl
        obtain ⟨ss, hss, hsstr⟩ := hsl
        obtain ⟨strs, hstrs⟩ := asStrs_ok (ts ++ ss) (by
          intro w hw
          rcases List.mem_append.mp hw with hw | hw
          · exact htstr w hw
          · exact hsstr w hw)
        refine ⟨ts, ss, strs, ?_, ?_, hstrs, ?_⟩
        · simp [pyGet, hts]
        · simp [pyGet, hss]
        · unfold skillsField
          rw [hsklk]
          simp only [Option.getD_some]
          rw [hts, hss]
          simp only [hstrs]
  obtain ⟨ts, ss, strs, hts, hss, hstrs, hskf⟩ := hskills
  rw [hjobs]
  by_cases htr : pyTruthy (PyVal.list jobs) = true
  · -- nonempty experience: the head entry is a dict
    match jobs, htr, hjobs, hdicts with
    | j :: js, htr, hjobs, hdicts =>
      obtain ⟨les, rfl⟩ := (isDictVal_iff j).mp (hdicts j (by simp))
      obtain ⟨estrs, hestrs⟩ := expStrings_ok (PyVal.dict les :: js) hdicts
      have htf : titleField es = (dictLookup les "position").getD (PyVal.str "") := by
        unfold titleField
        rw [hjobs]
      have hcf : companyField es = (dictLookup les "company").getD (PyVal.str "") := by
        unfold companyField
        rw [hjobs]
      have hff : fullExperienceField es = PyVal.str (String.intercalate (" | ") estrs) := by
        unfold fullExperienceField
        rw [hjobs]
        simp only [hestrs]
      split
      next hcond =>
        obtain ⟨n, hn, _⟩ := fallback_ok_nonneg (PyVal.dict les :: js)
          (fun j hj => (isDictVal_iff j).mp (hdicts j hj))
        have hyf : yearsField es = PyVal.int n := by
          unfold yearsField
          rw [hjobs, if_pos hcond, hn]
        simp only [hn, ok_bind, except_pure_bind, pyGet_dict, hestrs, hts, hss, hstrs,
          hyf, htf, hcf, hff, hskf]
      next hcond =>
        have hyf : yearsField es =
            (dictLookup es "total_experience_years").getD (PyVal.int 0) := by
          unfold yearsField
          rw [hjobs, if_neg hcond]
        simp only [ok_bind, except_pure_bind, pyGet_dict, hestrs, hts, hss, hstrs,
          hyf, htf, hcf, hff, hskf]
  · -- empty experience list
    have hjnil : jobs = [] := by
      cases jobs with
      | nil => rfl
      | cons j js => exact absurd (by simp [pyTruthy]) htr
    subst hjnil
    have htf : titleField es = PyVal.str "" := by
      unfold titleField
      rw [hjobs]
    have hcf : companyField es = PyVal.str "" := by
      unfold companyField
      rw [hjobs]
    have hff : fullExperienceField es = PyVal.str "" := by
      unfold fullExperienceField
      rw [hjobs]
    have hyf : yearsField es =
        (dictLookup es "total_experience_years").getD (PyVal.int 0) := by
      unfold yearsField
      rw [hjobs, if_neg (by simp [pyTruthy])]
    simp only [ok_bind, except_pure_bind, pyGet_dict, hts, hss, hstrs,
      hyf, htf, hcf, hff, hskf]
    rw [if_neg (show ¬ (¬ pyTruthy ((dictLookup es "total_experience_years").getD
      (PyVal.int 0)) = true ∧ pyTruthy (PyVal.list []) = true) by simp [pyTruthy])]
    rw [if_neg (show ¬ pyTruthy (PyVal.list []) = true by simp [pyTruthy])]

/-- C2 amended: the fallback counts year tokens with multiplicity: with the
years list `ys` scanned from the durations (range 1980–2099, word-bounded
4-digit tokens), the result is 0 for no token, 1 for exactly one token, and
`max ys − min ys` for two or more tokens — even when they are all the same
year, where the result is 0 rather than the 1 the distinct-year reading
suggests.  The spec's examples hold: `{2015, 2018}` gives 3, `{2020}` alone
gives 1, no token gives 0; and on a safe record with
`total_experience_years = 5` the flat record carries 5, the fallback being
skipped. -/
theorem c2_fallback_amended :
    (calculate_experience_fallback
        (PyVal.list [PyVal.dict [("duration", PyVal.str "2015 - 2018")]]) = Except.ok 3)
  ∧ (calculate_experience_fallback
        (PyVal.list [PyVal.dict [("duration", PyVal.str "2020")]]) = Except.ok 1)
  ∧ (calculate_experience_fallback
        (PyVal.list [PyVal.dict [("duration", PyVal.str "since March")]]) = Except.ok 0)
  ∧ (∀ jobs, collectYears jobs = Except.ok [] →
      calculate_experience_fallback (PyVal.list jobs) = Except.ok 0)
  ∧ (∀ jobs y, collectYears jobs = Except.ok [y] →
      calculate_experience_fallback (PyVal.list jobs) = Except.ok 1)
  ∧ (∀ jobs ys mx mn, collectYears jobs = Except.ok ys → 2 ≤ ys.length →
      ys.max? = some mx → ys.min? = some mn →
      calculate_experience_fallback (PyVal.list jobs) = Except.ok (mx - mn))
  ∧ (∀ es, flattenSafe (PyVal.dict es) = true →
      dictLookup es "total_experience_years" = some (PyVal.int 5) →
      ∃ r, flatten_parsed_data (PyVal.dict es) = Except.ok r ∧
        dictLookup r "YearsOfExperience" = some (PyVal.int 5)) := by
  refine ⟨rfl, rfl, rfl, ?_, ?_, ?_, ?_⟩
  · intro jobs h
    match jobs with
    | [] => rfl
    | j :: js =>
      simp [calculate_experience_fallback, pyTruthy, h, ok_bind]
  · intro jobs y h
    match jobs with
    | [] => simp only [collectYears] at h; cases h
    | j :: js =>
      simp [calculate_experience_fallback, pyTruthy, h, ok_bind]
  · intro jobs ys mx mn h hlen hmax hmin
    match jobs with
    | [] =>
      simp only [collectYears] at h
      cases h
      simp at hlen
    | j :: js =>
      match ys, hlen with
      | y :: ys', hlen2 =>
        simp [calculate_experience_fallback, pyTruthy, h, ok_bind]
        have hlen' : 0 < ys'.length := by
          simp at hlen2
          omega
        rw [if_pos hlen']
        have hmx : mx = ys'.foldl max y := by
          have h0 : (y :: ys').max? = some (ys'.foldl max y) := rfl
          rw [h0] at hmax
          exact (Option.some.inj hmax).symm
        have hmn : mn = ys'.foldl min y := by
          have h0 : (y :: ys').min? = some (ys'.foldl min y) := rfl
          rw [h0] at hmin
          exact (Option.some.inj hmin).symm
        rw [hmx, hmn]
        rfl
  · intro es hsafe htot
    refine ⟨_, flatten_spec es hsafe, ?_⟩
    have hyf : yearsField es = PyVal.int 5 := by
      unfold yearsField
      rw [htot]
      rw [if_neg (by simp [pyTruthy])]
      rfl
    simp [dictLookup, hyf]

/-- C2 witness: the token rule of the amended claim at durations holding
`{2003}` and `{1998, 2001}`, giving `2003 − 1998 = 5`. -/
theorem c2_witness :
    calculate_experience_fallback
      (PyVal.list [PyVal.dict [("duration", PyVal.str "2003")],
        PyVal.dict [("duration", PyVal.str "1998 and 2001")]]) = Except.ok 5 :=
  c2_fallback_amended.2.2.2.2.2.1
    [PyVal.dict [("duration", PyVal.str "2003")],
      PyVal.dict [("duration", PyVal.str "1998 and 2001")]]
    [2003, 1998, 2001] 2003 1998 rfl (by decide) (by decide) (by decide)

/-! ## Claim C9 — flattening is null-safe but not type-safe -/

/-- C9 counterexample: flattening is not total on every parsed dictionary.
A `contact_information` that is present but not an object makes
`parsed_data.get('contact_information', {}).get('email')` raise
`AttributeError`. -/
theorem c9_counterexample :
    flatten_parsed_data (PyVal.dict [("contact_information", PyVal.int 5)]) =
      Except.error PyErr.attributeError := rfl

/-- C9 amended: on every parsed dictionary whose nested fields, where
present, have the schema's shapes (objects for `contact_information`,
`professional_links` and `skills`, a list of objects for `experience`,
lists of strings for the skill lists), flattening returns a flat record
without raising, and each missing nested object leaves its derived columns
null or empty.  A present but ill-shaped nested value raises instead. -/
theorem c9_flatten_amended (es : List (String × PyVal))
    (h : flattenSafe (PyVal.dict es) = true) :
    ∃ r, flatten_parsed_data (PyVal.dict es) = Except.ok r ∧
      (dictLookup es "contact_information" = Option.none →
        dictLookup r "Email" = some PyVal.none ∧ dictLookup r "Phone" = some PyVal.none) ∧
      (dictLookup es "professional_links" = Option.none →
        dictLookup r "LinkedIn" = some PyVal.none ∧ dictLookup r "GitHub" = some PyVal.none ∧
          dictLookup r "Portfolio" = some PyVal.none) ∧
      (dictLookup es "skills" = Option.none →
        dictLookup r "Skills" = some (PyVal.str "")) ∧
      (dictLookup es "experience" = Option.none →
        dictLookup r "Title" = some (PyVal.str "") ∧
          dictLookup r "Company" = some (PyVal.str "") ∧
          dictLookup r "FullExperience" = some (PyVal.str "")) := by
  refine ⟨_, flatten_spec es h, ?_, ?_, ?_, ?_⟩
  · intro hnone
    have he : nestedField es ("contact_information") ("email") = PyVal.none := by
      unfold nestedField
      rw [hnone]
      rfl
    have hp : nestedField es ("contact_information") ("phone") = PyVal.none := by
      unfold nestedField
      rw [hnone]
      rfl
    constructor <;> simp +decide [dictLookup, List.find?, he, hp]
  · intro hnone
    have h1 : nestedField es ("professional_links") ("linkedin") = PyVal.none := by
      unfold nestedField
      rw [hnone]
      rfl
    have h2 : nestedField es ("professional_links") ("github") = PyVal.none := by
      unfold nestedField
      rw [hnone]
      rfl
    have h3 : nestedField es ("professional_links") ("portfolio") = PyVal.none := by
      unfold nestedField
      rw [hnone]
      rfl
    refine ⟨?_, ?_, ?_⟩ <;> simp +decide [dictLookup, List.find?, h1, h2, h3]
  · intro hnone
    have hs : skillsField es = PyVal.str "" := by
      unfold skillsField
      rw [hnone]
      rfl
    simp +decide [dictLookup, List.find?, hs]
  · intro hnone
    have h1 : titleField es = PyVal.str "" := by
      unfold titleField
      rw [hnone]
      rfl
    have h2 : companyField es = PyVal.str "" := by
      unfold companyField
      rw [hnone]
      rfl
    have h3 : fullExperienceField es = PyVal.str "" := by
      unfold fullExperienceField
      rw [hnone]
      rfl
    refine ⟨?_, ?_, ?_⟩ <;> simp +decide [dictLookup, List.find?, h1, h2, h3]

/-- C9 witness: the amended claim at a record missing every nested
object. -/
theorem c9_witness :
    ∃ r, flatten_parsed_data (PyVal.dict [("full_name", PyVal.str "Jane")]) =
        Except.ok r ∧
      (dictLookup [("full_name", PyVal.str "Jane")] "contact_information" = Option.none →
        dictLookup r "Email" = some PyVal.none ∧ dictLookup r "Phone" = some PyVal.none) ∧
      (dictLookup [("full_name", PyVal.str "Jane")] "professional_links" = Option.none →
        dictLookup r "LinkedIn" = some PyVal.none ∧ dictLookup r "GitHub" = some PyVal.none ∧
          dictLookup r "Portfolio" = some PyVal.none) ∧
      (dictLookup [("full_name", PyVal.str "Jane")] "skills" = Option.none →
        dictLookup r "Skills" = some (PyVal.str "")) ∧
      (dictLookup [("full_name", PyVal.str "Jane")] "experience" = Option.none →
        dictLookup r "Title" = some (PyVal.str "") ∧
          dictLookup r "Company" = some (PyVal.str "") ∧
          dictLookup r "FullExperience" = some (PyVal.str "")) :=
  c9_flatten_amended [("full_name", PyVal.str "Jane")] (by decide)

/-! ## The batch loop on handled environments -/

/-- The filename computation succeeds when `full_name` is absent or a
string. -/
theorem outputFilename_ok (es : List (String × PyVal)) (h : fullNameOk es = true) :
    ∃ fn, outputFilename (PyVal.dict es) = Except.ok fn := by
  unfold outputFilename
  rw [pyGet_dict]
  cases hlk : dictLookup es "full_name" with
  | none => exact ⟨_, rfl⟩
  | some v =>
    unfold fullNameOk at h
    rw [hlk] at h
    cases v <;> first | exact ⟨_, rfl⟩ | simp at h

/-- A removed file is gone. -/
theorem not_mem_removeFile (fs : List String) (f : String) : f ∉ removeFile fs f := by
  simp [removeFile]

/-- The loop body on an invalid URL. -/
theorem step_invalid (cfg : Config) (st : BatchState) (env : UrlEnv)
    (hu : ¬ pyStartsWith env.url ("http") = true) :
    step cfg st env = Except.ok { st with results := st.results ++
      [[("Resume_URL", PyVal.str env.url), ("Status", PyVal.str ("Skipped - Invalid URL"))]] } := by
  unfold step
  rw [if_pos hu]
  rfl

/-- The loop body on a failed download. -/
theorem step_download_fail (cfg : Config) (st : BatchState) (env : UrlEnv)
    (hu : pyStartsWith env.url ("http") = true) (hdl : env.download = Option.none) :
    step cfg st env = Except.ok { st with results := st.results ++
      [[("Resume_URL", PyVal.str env.url), ("Status", PyVal.str ("Failed - Download"))]] } := by
  simp only [step, hu, hdl]
  rfl

/-- The loop body on a text-extraction failure: row appended, temp file
removed. -/
theorem step_text_fail (cfg : Config) (st : BatchState) (env : UrlEnv) (fp : String)
    (hu : pyStartsWith env.url ("http") = true) (hdl : env.download = some fp)
    (htx : env.text = Option.none) :
    step cfg st env = Except.ok { st with
      results := st.results ++ [[("Resume_URL", PyVal.str env.url),
        ("Status", PyVal.str ("Failed - Text Extraction or Unsupported .doc"))]],
      tempFiles := removeFile (addFile st.tempFiles fp) fp } := by
  simp only [step, hu, hdl, htx]
  rfl

/-- The loop body on a JSON-decode failure: row appended, temp file
removed. -/
theorem step_decode_fail (cfg : Config) (st : BatchState) (env : UrlEnv) (fp txt : String)
    (hu : pyStartsWith env.url ("http") = true) (hdl : env.download = some fp)
    (htx : env.text = some txt)
    (hload : pyJsonLoads (extract_resume_data cfg env.sdk ("ollama")) = Option.none) :
    step cfg st env = Except.ok { st with
      results := st.results ++ [[("Resume_URL", PyVal.str env.url),
        ("Status", PyVal.str ("Failed - JSON Decode"))]],
      tempFiles := removeFile (addFile st.tempFiles fp) fp } := by
  simp only [step, hu, hdl, htx, hload]
  rfl

/-- The loop body on a decoded error envelope: the parser error is recorded
in the row, temp file removed. -/
theorem step_parser_error (cfg : Config) (st : BatchState) (env : UrlEnv) (fp txt : String)
    (pes : List (String × PyVal))
    (hu : pyStartsWith env.url ("http") = true) (hdl : env.download = some fp)
    (htx : env.text = some txt)
    (hload : pyJsonLoads (extract_resume_data cfg env.sdk ("ollama")) = some (PyVal.dict pes))
    (herr : pyTruthy ((dictLookup pes "error").getD PyVal.none) = true) :
    step cfg st env = Except.ok { st with
      results := st.results ++ [[("Resume_URL", PyVal.str env.url),
        ("Status", PyVal.str ("Failed - Parser Error: " ++
          pyStr ((dictLookup pes "message").getD PyVal.none)))]],
      tempFiles := removeFile (addFile st.tempFiles fp) fp } := by
  simp only [step, hu, hdl, htx, hload, pyGet_dict, ok_bind]
  rw [if_pos herr]
  rfl

/-- The loop body on a fully processed record: JSON file written, flat row
appended, temp file removed. -/
theorem step_success (cfg : Config) (st : BatchState) (env : UrlEnv) (fp txt fn : String)
    (pes : List (String × PyVal)) (flat : List (String × PyVal))
    (hu : pyStartsWith env.url ("http") = true) (hdl : env.download = some fp)
    (htx : env.text = some txt)
    (hload : pyJsonLoads (extract_resume_data cfg env.sdk ("ollama")) = some (PyVal.dict pes))
    (herr : ¬ pyTruthy ((dictLookup pes "error").getD PyVal.none) = true)
    (hfn : outputFilename (PyVal.dict pes) = Except.ok fn)
    (hwrite : env.writeOk = true)
    (hflat : flatten_parsed_data (PyVal.dict pes) = Except.ok flat) :
    step cfg st env = Except.ok { st with
      results := st.results ++
        [[("Resume_URL", PyVal.str env.url)] ++ flat ++ [("Status", PyVal.str ("Processed"))]],
      tempFiles := removeFile (addFile st.tempFiles fp) fp,
      jsonFiles := addFile st.jsonFiles ("__BATCH_OUTPUTS__/" ++ fn) } := by
  simp only [step, hu, hdl, htx, hload, pyGet_dict, ok_bind]
  rw [if_neg herr, hfn]
  simp only [hwrite, if_true, hflat]
  simp

/-- On a handled environment, one loop iteration completes normally and
appends exactly one row. -/
theorem step_handled (cfg : Config) (st : BatchState) (env : UrlEnv)
    (h : handledEnv cfg env = true) :
    ∃ row tf jf, step cfg st env = Except.ok ⟨st.results ++ [row], tf, jf⟩ := by
  unfold handledEnv handledAfterDownload at h
  by_cases hu : pyStartsWith env.url ("http") = true
  · cases hdl : env.download with
    | none => exact ⟨_, _, _, step_download_fail cfg st env hu hdl⟩
    | some fp =>
      cases htx : env.text with
      | none => exact ⟨_, _, _, step_text_fail cfg st env fp hu hdl htx⟩
      | some txt =>
        cases hload : pyJsonLoads (extract_resume_data cfg env.sdk ("ollama")) with
        | none => exact ⟨_, _, _, step_decode_fail cfg st env fp txt hu hdl htx hload⟩
        | some parsed =>
          have hrec : recordHandled parsed env.writeOk = true := by
            rw [hu, hdl, htx, hload] at h
            simpa using h
          match parsed, hrec with
          | PyVal.dict pes, hrec =>
            simp only [recordHandled] at hrec
            by_cases herr : pyTruthy ((dictLookup pes "error").getD PyVal.none) = true
            · exact ⟨_, _, _, step_parser_error cfg st env fp txt pes hu hdl htx hload herr⟩
            · rw [if_neg herr] at hrec
              simp only [Bool.and_eq_true] at hrec
              obtain ⟨⟨hsafe, hname⟩, hwrite⟩ := hrec
              obtain ⟨fn, hfn⟩ := outputFilename_ok pes hname
              exact ⟨_, _, _, step_success cfg st env fp txt fn pes _ hu hdl htx hload herr
                hfn hwrite (flatten_spec pes hsafe)⟩
  · exact ⟨_, _, _, step_invalid cfg st env hu⟩

/-- Folding the loop over handled environments: it completes and appends
one row per URL. -/
theorem runFrom_handled (cfg : Config) :
    ∀ (envs : List UrlEnv) (st : BatchState), (∀ e ∈ envs, handledEnv cfg e = true) →
      ∃ st', runFrom cfg st envs = Except.ok st' ∧
        st'.results.length = st.results.length + envs.length
  | [], st, _ => ⟨st, rfl, by simp⟩
  | env :: envs, st, h => by
    obtain ⟨row, tf, jf, hstep⟩ := step_handled cfg st env (h env (by simp))
    obtain ⟨st', hrun, hlen⟩ :=
      runFrom_handled cfg envs ⟨st.results ++ [row], tf, jf⟩
        (fun e he => h e (by simp [he]))
    refine ⟨st', ?_, ?_⟩
    · unfold runFrom
      rw [hstep]
      exact hrun
    · have hlen2 : st'.results.length = st.results.length + 1 + envs.length := by
        simpa using hlen
      simp only [List.length_cons]
      omega

/-! ## Claims C3, C4, C5 — the batch runner -/

/-- C3 counterexample: a URL whose parser output decodes to a JSON array
(not an object) makes the loop body call `.get` on a list, raising
`AttributeError` out of the `try` block (which catches only
`json.JSONDecodeError`, line 211).  The run aborts before `to_csv`: the
report is never written, so it does not have one row per input URL. -/
theorem c3_counterexample :
    run_extraction ⟨Option.none, Option.none, "llama3"⟩
      [⟨"http://a.example/r.pdf", some "f1.pdf", some "text", Except.ok ("[]"), true⟩] =
      Option.none := rfl

/-- C3 amended: on a nonempty URL list all of whose environments are
handled (invalid URL, download failure, text-extraction failure,
JSON-decode failure, a truthy error envelope, or a flatten-safe record with
a writable output file), the run completes and the report has exactly one
row per input URL.  (On an empty list the function returns at line 161
before writing any report, and a non-object decode, a flatten crash, or a
failed file write aborts the run with no report at all.) -/
theorem c3_row_count_amended (cfg : Config) (envs : List UrlEnv)
    (hne : envs ≠ []) (h : ∀ e ∈ envs, handledEnv cfg e = true) :
    ∃ rows, run_extraction cfg envs = some rows ∧ rows.length = envs.length := by
  cases envs with
  | nil => exact absurd rfl hne
  | cons e es =>
    obtain ⟨st, hrun, hlen⟩ := runFrom_handled cfg (e :: es) initState h
    refine ⟨st.results, ?_, ?_⟩
    · simp only [run_extraction, List.isEmpty_cons, Bool.false_eq_true, if_false, hrun]
    · simpa [initState] using hlen

/-- C3 witness: a two-URL batch — one invalid URL, one download failure —
produces a report with exactly two rows. -/
theorem c3_witness :
    ∃ rows, run_extraction ⟨Option.none, Option.none, "llama3"⟩
        [⟨"ftp://x", Option.none, Option.none, Except.ok (""), false⟩,
         ⟨"http://y", Option.none, Option.none, Except.ok (""), false⟩] = some rows ∧
      rows.length = 2 :=
  c3_row_count_amended ⟨Option.none, Option.none, "llama3"⟩
    [⟨"ftp://x", Option.none, Option.none, Except.ok (""), false⟩,
     ⟨"http://y", Option.none, Option.none, Except.ok (""), false⟩]
    (List.cons_ne_nil _ _) (by decide)

/-- C4 counterexample: a record whose `contact_information` field is the
number 5 decodes fine, but `flatten_parsed_data` then calls `.get` on an
int and raises `AttributeError`, which the loop's `except
json.JSONDecodeError` handler does not catch.  The run dies on the first
URL: the second URL (a mere download failure, which would have got its own
row) is never processed and the final report is never written — a per-URL
failure is not localized to that URL's row. -/
theorem c4_counterexample :
    run_extraction ⟨Option.none, Option.none, "llama3"⟩
      [⟨"http://b.example/r.pdf", some "f2.pdf", some "text",
         Except.ok ("\x7b\"contact_information\": 5\x7d"), true⟩,
       ⟨"http://c.example/r.pdf", Option.none, Option.none, Except.ok (""), true⟩] =
      Option.none := rfl

/-- C4 amended: the failures the loop body does localize are invalid URLs,
download failures, text-extraction failures, JSON-decode failures, and
every dispatch failure (the error envelope always decodes, so the SDK
exception text is recorded in that URL's `Failed - Parser Error` row);
in each of these cases the iteration returns normally with exactly one
row appended for that URL, and a whole batch of such environments (plus
flatten-safe successes) runs to completion with the report written.
Flattening and file-write failures are NOT localized: they raise out of
the loop (see the C4 counterexample). -/
theorem c4_failures_localized_amended (cfg : Config) (st : BatchState) (env : UrlEnv) :
    (¬ pyStartsWith env.url ("http") = true →
      step cfg st env = Except.ok { st with results := st.results ++
        [[("Resume_URL", PyVal.str env.url),
          ("Status", PyVal.str ("Skipped - Invalid URL"))]] }) ∧
    (pyStartsWith env.url ("http") = true → env.download = Option.none →
      step cfg st env = Except.ok { st with results := st.results ++
        [[("Resume_URL", PyVal.str env.url),
          ("Status", PyVal.str ("Failed - Download"))]] }) ∧
    (∀ fp, pyStartsWith env.url ("http") = true → env.download = some fp →
      env.text = Option.none →
      step cfg st env = Except.ok { st with
        results := st.results ++ [[("Resume_URL", PyVal.str env.url),
          ("Status", PyVal.str ("Failed - Text Extraction or Unsupported .doc"))]],
        tempFiles := removeFile (addFile st.tempFiles fp) fp }) ∧
    (∀ fp txt, pyStartsWith env.url ("http") = true → env.download = some fp →
      env.text = some txt →
      pyJsonLoads (extract_resume_data cfg env.sdk ("ollama")) = Option.none →
      step cfg st env = Except.ok { st with
        results := st.results ++ [[("Resume_URL", PyVal.str env.url),
          ("Status", PyVal.str ("Failed - JSON Decode"))]],
        tempFiles := removeFile (addFile st.tempFiles fp) fp }) ∧
    (∀ fp txt msg, pyStartsWith env.url ("http") = true → env.download = some fp →
      env.text = some txt → env.sdk = Except.error msg →
      step cfg st env = Except.ok { st with
        results := st.results ++ [[("Resume_URL", PyVal.str env.url),
          ("Status", PyVal.str ("Failed - Parser Error: " ++
            ollamaConnectionMessage cfg.ollamaModel))]],
        tempFiles := removeFile (addFile st.tempFiles fp) fp }) ∧
    (∀ envs, handledEnv cfg env = true → (∀ e ∈ envs, handledEnv cfg e = true) →
      ∃ rows, run_extraction cfg (env :: envs) = some rows ∧
        rows.length = envs.length + 1) := by
  refine ⟨step_invalid cfg st env,
    step_download_fail cfg st env,
    fun fp => step_text_fail cfg st env fp,
    fun fp txt => step_decode_fail cfg st env fp txt,
    fun fp txt msg hu hdl htx hsdk => ?_,
    fun envs hh h => ?_⟩
  · have hx : extract_resume_data cfg env.sdk ("ollama") =
        errorEnvelopeString (ollamaConnectionMessage cfg.ollamaModel) ("ollama") := by
      rw [hsdk]
      rfl
    have hload : pyJsonLoads (extract_resume_data cfg env.sdk ("ollama")) =
        some (PyVal.dict [("error", PyVal.bool true),
          ("message", PyVal.str (ollamaConnectionMessage cfg.ollamaModel)),
          ("provider", PyVal.str ("ollama"))]) := by
      rw [hx]
      exact pyJsonLoads_errorEnvelope _ _
    exact step_parser_error cfg st env fp txt _ hu hdl htx hload rfl
  · obtain ⟨st2, hrun, hlen⟩ := runFrom_handled cfg (env :: envs) initState (by
      intro e he
      rcases List.mem_cons.mp he with rfl | hm
      · exact hh
      · exact h e hm)
    refine ⟨st2.results, ?_, ?_⟩
    · simp only [run_extraction, List.isEmpty_cons, Bool.false_eq_true, if_false, hrun]
    · simpa [initState] using hlen

/-- C4 witness: a URL whose SDK call fails gets the dispatch exception
recorded in its own row, and the iteration exits normally. -/
theorem c4_witness :
    step ⟨Option.none, Option.none, "llama3"⟩ initState
        ⟨"http://w.example/r.pdf", some "w.pdf", some "txt", Except.error "boom", true⟩ =
      Except.ok { initState with
        results := initState.results ++ [[("Resume_URL", PyVal.str "http://w.example/r.pdf"),
          ("Status", PyVal.str ("Failed - Parser Error: " ++
            ollamaConnectionMessage "llama3"))]],
        tempFiles := removeFile (addFile initState.tempFiles "w.pdf") "w.pdf" } :=
  (c4_failures_localized_amended ⟨Option.none, Option.none, "llama3"⟩ initState ⟨"http://w.example/r.pdf", some "w.pdf", some "txt", Except.error "boom", true⟩).2.2.2.2.1 "w.pdf" "txt" "boom" (by decide) rfl rfl rfl

/-- C5 counterexample: when the loop body raises (here: parser output
decodes to the JSON array `[1]`, so `.get` on a list raises
`AttributeError`), the `os.remove` cleanup at the end of the `try` block
never executes — the run aborts with the downloaded temporary file still
on disk. -/
theorem c5_counterexample :
    ∃ st, runFrom ⟨Option.none, Option.none, "llama3"⟩ initState
        [⟨"http://d.example/r.pdf", some "f3.pdf", some "text", Except.ok ("[1]"), true⟩] =
      Except.error (PyErr.attributeError, st) ∧ ("f3.pdf") ∈ st.tempFiles :=
  ⟨⟨[], ["f3.pdf"], []⟩, rfl, by simp⟩

/-- C5 amended: on every exit path of the loop body that the `try` block
handles — success, text-extraction failure, JSON-decode failure, and a
truthy error envelope (which covers every dispatch failure) — the
iteration returns normally and the downloaded temporary file is no longer
on disk.  On a raising exit path (non-object decode, flatten crash, file
write failure) the cleanup is skipped and the file persists (see the C5
counterexample). -/
theorem c5_temp_removed_amended (cfg : Config) (st : BatchState) (env : UrlEnv) (fp : String)
    (hu : pyStartsWith env.url ("http") = true) (hdl : env.download = some fp)
    (h : handledAfterDownload cfg env = true) :
    ∃ st2, step cfg st env = Except.ok st2 ∧ fp ∉ st2.tempFiles := by
  unfold handledAfterDownload at h
  cases htx : env.text with
  | none => exact ⟨_, step_text_fail cfg st env fp hu hdl htx, not_mem_removeFile _ _⟩
  | some txt =>
    cases hload : pyJsonLoads (extract_resume_data cfg env.sdk ("ollama")) with
    | none =>
      exact ⟨_, step_decode_fail cfg st env fp txt hu hdl htx hload, not_mem_removeFile _ _⟩
    | some parsed =>
      have hrec : recordHandled parsed env.writeOk = true := by
        rw [htx, hload] at h
        simpa using h
      match parsed, hrec with
      | PyVal.dict pes, hrec =>
        simp only [recordHandled] at hrec
        by_cases herr : pyTruthy ((dictLookup pes "error").getD PyVal.none) = true
        · exact ⟨_, step_parser_error cfg st env fp txt pes hu hdl htx hload herr,
            not_mem_removeFile _ _⟩
        · rw [if_neg herr] at hrec
          simp only [Bool.and_eq_true] at hrec
          obtain ⟨⟨hsafe, hname⟩, hwrite⟩ := hrec
          obtain ⟨fn, hfn⟩ := outputFilename_ok pes hname
          exact ⟨_, step_success cfg st env fp txt fn pes _ hu hdl htx hload herr
            hfn hwrite (flatten_spec pes hsafe), not_mem_removeFile _ _⟩

/-- C5 witness: a downloaded file whose text extraction fails is removed
before the iteration ends. -/
theorem c5_witness :
    ∃ st2, step ⟨Option.none, Option.none, "llama3"⟩ initState
        ⟨"http://v.example/r.pdf", some "v.pdf", Option.none, Except.ok (""), false⟩ =
      Except.ok st2 ∧ ("v.pdf") ∉ st2.tempFiles :=
  c5_temp_removed_amended ⟨Option.none, Option.none, "llama3"⟩ initState
    ⟨"http://v.example/r.pdf", some "v.pdf", Option.none, Except.ok (""), false⟩
    ("v.pdf") (by decide) rfl (by decide)

end ResumeFrontier
